import Mathlib

/-!
Verification of the SEP assignment solver (data_schema.py, solver.py,
solver_process.py, utils.py) via a shallow embedding.

Python dicts are modelled as insertion-ordered association lists
(`pyDict`), Python list indexing as `Except`-valued access (IndexError),
dict `[]` access and Gurobi tupledict access as `Except`-valued lookup
(KeyError / TypeError for comparisons against a missing `.get`), and the
Gurobi model as a symbolic list of linear constraints (`Constr`) over the
variables `GVar` that `SEPAssignmentSolver.__init__` creates, plus a list
of prioritized objectives (`MObj`).  Machine arithmetic is exact here
(ids and counts are small naturals, coefficients integers), so `Nat`/`Int`
are used directly.
-/

/-- Python dict insertion: update the value at an existing key in place,
otherwise append the binding at the end (insertion order preserved). -/
def dinsert {κ α : Type} [DecidableEq κ] (k : κ) (v : α) : List (κ × α) → List (κ × α)
  | [] => [(k, v)]
  | e :: rest => if e.1 = k then (k, v) :: rest else e :: dinsert k v rest

/-- Build a Python dict (insertion-ordered, unique keys) from a list of bindings. -/
def pyDict {κ α : Type} [DecidableEq κ] (l : List (κ × α)) : List (κ × α) :=
  l.foldl (fun d kv => dinsert kv.1 kv.2 d) []

/-- Lookup in an association list (first binding wins). -/
def aget {κ α : Type} [DecidableEq κ] : List (κ × α) → κ → Option α
  | [], _ => none
  | e :: rest, k => if e.1 = k then some e.2 else aget rest k

/-- Python dict `d[k]` access: KeyError when the key is absent. -/
def dget {κ α : Type} [DecidableEq κ] (d : List (κ × α)) (k : κ) : Except String α :=
  match aget d k with
  | some v => Except.ok v
  | none => Except.error "KeyError"

/-- Python list indexing `l[i]` (ids here are naturals, so no negative wrap). -/
def listGet {α : Type} (l : List α) (i : Nat) : Except String α :=
  if h : i < l.length then Except.ok (l.get ⟨i, h⟩) else Except.error "IndexError"

/-- Python `l[i] += 1` on a list of integers. -/
def bump (l : List Int) (i : Nat) : Except String (List Int) :=
  if h : i < l.length then Except.ok (l.set i (l.get ⟨i, h⟩ + 1)) else Except.error "IndexError"

/-- Effectful map that stops at the first raised exception. -/
def emap {α β : Type} (f : α → Except String β) : List α → Except String (List β)
  | [] => Except.ok []
  | a :: rest =>
    match f a with
    | Except.error e => Except.error e
    | Except.ok b =>
      match emap f rest with
      | Except.error e => Except.error e
      | Except.ok bs => Except.ok (b :: bs)

/-- Run an exception-raising step over a list, keeping the output produced
before the first exception (Python for-loops mutate the model incrementally,
so constraints added before a crash stay in the model). -/
def foldStop {α β : Type} (f : α → Except String (List β)) : List α → List β × Option String
  | [] => ([], none)
  | a :: rest =>
    match f a with
    | Except.error e => ([], some e)
    | Except.ok bs =>
      let r := foldStop f rest
      (bs ++ r.1, r.2)

/-- Like `foldStop` but the step itself may stop early with partial output. -/
def foldStopP {α β : Type} (f : α → List β × Option String) : List α → List β × Option String
  | [] => ([], none)
  | a :: rest =>
    let x := f a
    match x.2 with
    | some e => (x.1, some e)
    | none =>
      let r := foldStopP f rest
      (x.1 ++ r.1, r.2)

/-- Sequence two incremental computations: the second runs only when the
first finished without an exception. -/
def pcomp {α : Type} (x y : List α × Option String) : List α × Option String :=
  match x.2 with
  | some e => x
  | none => (x.1 ++ y.1, y.2)

/-- Collect the results of a sequence of statements, stopping at the first
exception (used for the six `setObjectiveN` calls). -/
def collectStop {α : Type} : List (Except String α) → List α × Option String
  | [] => ([], none)
  | x :: rest =>
    match x with
    | Except.error e => ([], some e)
    | Except.ok v =>
      let r := collectStop rest
      (v :: r.1, r.2)

/-- Python `any` over an exception-raising generator: short-circuits at the
first `True`, so later exceptions are not reached. -/
def anyE {α : Type} (f : α → Except String Bool) : List α → Except String Bool
  | [] => Except.ok false
  | a :: rest =>
    match f a with
    | Except.error e => Except.error e
    | Except.ok true => Except.ok true
    | Except.ok false => anyE f rest

/-- Filtering comprehension whose predicate may raise. -/
def filterE {α : Type} (f : α → Except String Bool) : List α → Except String (List α)
  | [] => Except.ok []
  | a :: rest =>
    match f a with
    | Except.error e => Except.error e
    | Except.ok b =>
      match filterE f rest with
      | Except.error e => Except.error e
      | Except.ok l => Except.ok (if b then a :: l else l)

/-- data_schema.Student: id, selected projects, deselected projects, role
(0 = programmer, 1 = writer), and the programming-skills dict (language name
to integer level), modelled as an association list. -/
structure Student where
  id : Nat
  projects : List Nat
  negatives : List Nat
  skill : Nat
  programing_skills : List (String × Int)
deriving DecidableEq

/-- data_schema.Project: the pydantic model defines exactly the fields
id, min and max (data_schema.py lines 19-25). -/
structure Project where
  id : Nat
  min : Int
  max : Int
deriving DecidableEq

/-- Constructing a data_schema.Project as utils.py line 52 does, with the
extra keyword arguments opt and language_requirements.  Pydantic's default
for extra fields is to ignore them silently, so both extras are discarded. -/
def Project.fromKwargs (id : Nat) (mn mx : Int) (opt : Int)
    (language_requirements : List Int) : Project :=
  { id := id, min := mn, max := mx }

/-- data_schema.Instance over the schema-defined Project. -/
structure Instance where
  students : List Student
  projects : List Project
  programming_languages : List String
deriving DecidableEq

/-- The project record as solver.py and the statistics code actually access
it: setup_constraints reads project.opt and project.language_requirements
(solver.py lines 93-120), and utils.py passes both to the constructor, but
data_schema.Project defines neither field.  ProjectS models the record shape
the solver code assumes. -/
structure ProjectS where
  id : Nat
  min : Int
  max : Int
  opt : Int
  language_requirements : List Int
deriving DecidableEq

/-- The instance as the solver code assumes it (projects carrying opt and
language_requirements). -/
structure InstanceS where
  students : List Student
  projects : List ProjectS
  programming_languages : List String
deriving DecidableEq

/-- data_schema.Solution: a list of (student_id, project_id) pairs. -/
structure Solution where
  assignments : List (Nat × Nat)
deriving DecidableEq

/-- The decision and helper variables SEPAssignmentSolver.__init__ creates:
binary assign variables per (student id, project id), continuous abs_diff
and opt_size_diff per project index, binary skill_coverage per
(project index, language index). -/
inductive GVar : Type
  | assign (s p : Nat)
  | abs_diff (p : Nat)
  | opt_size_diff (p : Nat)
  | skill_coverage (p k : Nat)
deriving DecidableEq

/-- A linear expression: constant plus coefficient-variable terms. -/
abbrev LinE : Type := Int × List (Int × GVar)

/-- A Gurobi linear constraint added by addConstr. -/
inductive Constr : Type
  | le (a b : LinE)
  | eqc (a b : LinE)
deriving DecidableEq

/-- Value of a linear expression under a valuation of the variables. -/
def evalL (v : GVar → Int) (e : LinE) : Int :=
  e.1 + (e.2.map (fun t => t.1 * v t.2)).sum

/-- Satisfaction of a constraint under a valuation. -/
def holds (v : GVar → Int) : Constr → Prop
  | Constr.le a b => evalL v a ≤ evalL v b
  | Constr.eqc a b => evalL v a = evalL v b

instance (v : GVar → Int) : (c : Constr) → Decidable (holds v c)
  | Constr.le a b => inferInstanceAs (Decidable (evalL v a ≤ evalL v b))
  | Constr.eqc a b => inferInstanceAs (Decidable (evalL v a = evalL v b))

/-- A constant linear expression. -/
def constE (c : Int) : LinE := (c, [])

/-- A pure sum of terms. -/
def sumVars (ts : List (Int × GVar)) : LinE := (0, ts)

/-- Difference of two term sums, as the expression a - b. -/
def subE (a b : List (Int × GVar)) : LinE :=
  (0, a ++ b.map (fun t => (-t.1, t.2)))

/-- sum(x for (s, p), x in self._assignment_vars if p == project.id). -/
def projSum (pairs : List (Nat × Nat)) (pid : Nat) : LinE :=
  (0, (pairs.filter (fun q => q.2 == pid)).map (fun q => ((1 : Int), GVar.assign q.1 q.2)))

/-- sum(x for (s, p), x in self._assignment_vars if s == student.id). -/
def studSum (pairs : List (Nat × Nat)) (sid : Nat) : LinE :=
  (0, (pairs.filter (fun q => q.1 == sid)).map (fun q => ((1 : Int), GVar.assign q.1 q.2)))

/-- self._students = {s.id: s for s in instance.students}. -/
def studentsD (inst : InstanceS) : List (Nat × Student) :=
  pyDict (inst.students.map (fun s => (s.id, s)))

/-- self._students.values(). -/
def studentsV (inst : InstanceS) : List Student :=
  (studentsD inst).map (fun e => e.2)

/-- self._projects = {p.id: p for p in instance.projects}. -/
def projectsD (inst : InstanceS) : List (Nat × ProjectS) :=
  pyDict (inst.projects.map (fun p => (p.id, p)))

/-- self._projects.values(). -/
def projectsV (inst : InstanceS) : List ProjectS :=
  (projectsD inst).map (fun e => e.2)

/-- The keys of the _AssignmentVariables dict, in insertion order:
(s.id, p.id) for s in students for p in projects. -/
def varPairs (inst : InstanceS) : List (Nat × Nat) :=
  (studentsV inst).flatMap (fun s => (projectsV inst).map (fun p => (s.id, p.id)))

/-- Project capacity constraints (solver.py lines 69-71): for every project,
max >= sum of its assign variables and min <= that sum. -/
def projectConstrs (pairs : List (Nat × Nat)) (ps : List ProjectS) : List Constr :=
  ps.flatMap (fun proj =>
    [Constr.le (projSum pairs proj.id) (constE proj.max),
     Constr.le (constE proj.min) (projSum pairs proj.id)])

/-- Student constraints (solver.py lines 74-75): 1 >= sum of the student's
assign variables. -/
def studentConstrs (pairs : List (Nat × Nat)) (ss : List Student) : List Constr :=
  ss.map (fun st => Constr.le (studSum pairs st.id) (constE 1))

/-- Terms of sum(x if students[s].skill == sk else 0 for (s, p), x in vars
if p == pid); the dict lookup students[s] can raise KeyError. -/
def skillTerms (studs : List (Nat × Student)) (pairs : List (Nat × Nat))
    (pid : Nat) (sk : Nat) : Except String (List (Int × GVar)) :=
  emap (fun q =>
    match dget studs q.1 with
    | Except.error e => Except.error e
    | Except.ok st =>
      Except.ok ((if st.skill = sk then (1 : Int) else 0), GVar.assign q.1 q.2))
    (pairs.filter (fun q => q.2 == pid))

/-- One iteration of the abs_diff loop (solver.py lines 82-90): the counts
are stored into python lists indexed by project.id (IndexError when the id
is not below the number of projects), then the two absolute-value
linearization constraints are added. -/
def absDiffStep (studs : List (Nat × Student)) (pairs : List (Nat × Nat))
    (n : Nat) (proj : ProjectS) : Except String (List Constr) :=
  match skillTerms studs pairs proj.id 0 with
  | Except.error e => Except.error e
  | Except.ok pterms =>
    if proj.id < n then
      match skillTerms studs pairs proj.id 1 with
      | Except.error e => Except.error e
      | Except.ok wterms =>
        Except.ok
          [Constr.le (subE wterms pterms) (sumVars [(1, GVar.abs_diff proj.id)]),
           Constr.le (subE pterms wterms) (sumVars [(1, GVar.abs_diff proj.id)])]
    else Except.error "IndexError"

/-- Terms of the advanced-skill count: x * (students[s].programing_skills.get(lang) >= 2);
a missing key makes .get return None and the comparison raise TypeError. -/
def advTerms (studs : List (Nat × Student)) (pairs : List (Nat × Nat))
    (pid : Nat) (lang : String) : Except String (List (Int × GVar)) :=
  emap (fun q =>
    match dget studs q.1 with
    | Except.error e => Except.error e
    | Except.ok st =>
      match aget st.programing_skills lang with
      | none => Except.error "TypeError"
      | some lvl =>
        Except.ok ((if 2 ≤ lvl then (1 : Int) else 0), GVar.assign q.1 q.2))
    (pairs.filter (fun q => q.2 == pid))

/-- One project of the skill_coverage constraint loop (solver.py lines
92-104): for every language index, read language_requirements (possible
IndexError); when the requirement is 1, build the advanced-student count and
add skill_coverage[p, k] <= count (the tupledict access raises KeyError when
p is not below the number of projects); when it is 0, force
skill_coverage[p, k] == 0; any other value adds nothing. -/
def skillCovStep (studs : List (Nat × Student)) (pairs : List (Nat × Nat))
    (n : Nat) (langs : List String) (proj : ProjectS) : List Constr × Option String :=
  foldStop (fun kl : Nat × String =>
    match listGet proj.language_requirements kl.1 with
    | Except.error e => Except.error e
    | Except.ok req =>
      if req = 1 then
        match advTerms studs pairs proj.id kl.2 with
        | Except.error e => Except.error e
        | Except.ok ts =>
          if proj.id < n then
            Except.ok [Constr.le (sumVars [(1, GVar.skill_coverage proj.id kl.1)]) (sumVars ts)]
          else Except.error "KeyError"
      else if req = 0 then
        if proj.id < n then
          Except.ok [Constr.eqc (sumVars [(1, GVar.skill_coverage proj.id kl.1)]) (constE 0)]
        else Except.error "KeyError"
      else Except.ok []) langs.enum

/-- Terms of sum(x * students[s].programing_skills.get(lang) for (s, p), x in
vars if p == pid); a missing key makes the multiplication raise TypeError. -/
def weightTerms (studs : List (Nat × Student)) (pairs : List (Nat × Nat))
    (pid : Nat) (lang : String) : Except String (List (Int × GVar)) :=
  emap (fun q =>
    match dget studs q.1 with
    | Except.error e => Except.error e
    | Except.ok st =>
      match aget st.programing_skills lang with
      | none => Except.error "TypeError"
      | some lvl => Except.ok (lvl, GVar.assign q.1 q.2))
    (pairs.filter (fun q => q.2 == pid))

/-- One project of the minimum-skill loop (solver.py lines 107-112): for every
language index, add sum(x * skill) >= language_requirements[k]; the sum is
evaluated before the requirement is indexed. -/
def minSkillStep (studs : List (Nat × Student)) (pairs : List (Nat × Nat))
    (langs : List String) (proj : ProjectS) : List Constr × Option String :=
  foldStop (fun kl : Nat × String =>
    match weightTerms studs pairs proj.id kl.2 with
    | Except.error e => Except.error e
    | Except.ok ts =>
      match listGet proj.language_requirements kl.1 with
      | Except.error e => Except.error e
      | Except.ok req => Except.ok [Constr.le (constE req) (sumVars ts)]) langs.enum

/-- One project of the optimal-size loop (solver.py lines 115-120): the
opt_size_diff tupledict access raises KeyError when the id is out of range;
otherwise both absolute-value constraints are added. -/
def optSizeStep (pairs : List (Nat × Nat)) (n : Nat) (proj : ProjectS) :
    Except String (List Constr) :=
  let s := (pairs.filter (fun q => q.2 == proj.id)).map
    (fun q => ((1 : Int), GVar.assign q.1 q.2))
  if proj.id < n then
    Except.ok
      [Constr.le (-proj.opt, s) (sumVars [(1, GVar.opt_size_diff proj.id)]),
       Constr.le (proj.opt, s.map (fun t => (-t.1, t.2))) (sumVars [(1, GVar.opt_size_diff proj.id)])]
  else Except.error "KeyError"

/-- The constraint half of SEPAssignmentSolver.setup_constraints, run block
by block in source order; constraints added before the first raised exception
remain in the model. -/
def setup_constraints_list (inst : InstanceS) : List Constr × Option String :=
  let pairs := varPairs inst
  let studs := studentsD inst
  let ps := projectsV inst
  let n := ps.length
  let langs := inst.programming_languages
  pcomp (projectConstrs pairs ps ++ studentConstrs pairs (studentsV inst), none)
    (pcomp (foldStop (absDiffStep studs pairs n) ps)
      (pcomp (foldStopP (skillCovStep studs pairs n langs) ps)
        (pcomp (foldStopP (minSkillStep studs pairs langs) ps)
          (foldStop (optSizeStep pairs n) ps))))

/-- One prioritized objective term passed to setObjectiveN. -/
structure MObj where
  index : Nat
  priority : Nat
  weight : Rat
  expr : LinE
deriving DecidableEq

/-- Objective 0 (priority 6): sum(x if p not in students[s].negatives else 0). -/
def mkObj0 (studs : List (Nat × Student)) (pairs : List (Nat × Nat)) :
    Except String MObj :=
  match emap (fun q =>
    match dget studs q.1 with
    | Except.error e => Except.error e
    | Except.ok st =>
      Except.ok ((if q.2 ∈ st.negatives then (0 : Int) else 1), GVar.assign q.1 q.2)) pairs with
  | Except.error e => Except.error e
  | Except.ok ts => Except.ok { index := 0, priority := 6, weight := 2, expr := (0, ts) }

/-- Objective 1 (priority 5): sum(x if p not in students[s].projects else 2 * x). -/
def mkObj1 (studs : List (Nat × Student)) (pairs : List (Nat × Nat)) :
    Except String MObj :=
  match emap (fun q =>
    match dget studs q.1 with
    | Except.error e => Except.error e
    | Except.ok st =>
      Except.ok ((if q.2 ∈ st.projects then (2 : Int) else 1), GVar.assign q.1 q.2)) pairs with
  | Except.error e => Except.error e
  | Except.ok ts => Except.ok { index := 1, priority := 5, weight := 2, expr := (0, ts) }

/-- Objective 2 (priority 4): quicksum of skill_coverage[p, k] over
p in range(len(instance.projects)), k in range(len(languages)); the
tupledict access raises KeyError outside the created index range. -/
def mkObj2 (n nL instPn instLn : Nat) : Except String MObj :=
  match emap (fun pk : Nat × Nat =>
    if pk.1 < n ∧ pk.2 < nL then Except.ok ((1 : Int), GVar.skill_coverage pk.1 pk.2)
    else Except.error "KeyError")
    ((List.range instPn).flatMap (fun p => (List.range instLn).map (fun k => (p, k)))) with
  | Except.error e => Except.error e
  | Except.ok ts => Except.ok { index := 2, priority := 4, weight := 1, expr := (0, ts) }

/-- Objective 3 (priority 3): minus the sum of opt_size_diff[j] over
j in range(len(instance.projects)). -/
def mkObj3 (n instPn : Nat) : Except String MObj :=
  match emap (fun j =>
    if j < n then Except.ok ((-1 : Int), GVar.opt_size_diff j)
    else Except.error "KeyError") (List.range instPn) with
  | Except.error e => Except.error e
  | Except.ok ts => Except.ok { index := 3, priority := 3, weight := (1 : Rat) / 2, expr := (0, ts) }

/-- Objective 4 (priority 2): minus the sum of abs_diff[j] over
j in range(len(instance.projects)). -/
def mkObj4 (n instPn : Nat) : Except String MObj :=
  match emap (fun j =>
    if j < n then Except.ok ((-1 : Int), GVar.abs_diff j)
    else Except.error "KeyError") (List.range instPn) with
  | Except.error e => Except.error e
  | Except.ok ts => Except.ok { index := 4, priority := 2, weight := 1, expr := (0, ts) }

/-- The filter of objective 5: any(students[s].programing_skills.get(skill) >= 1
for (skill, skillInt) in zip(languages, projects[p].language_requirements)
if skillInt == 1). -/
def obj5cond (studs : List (Nat × Student)) (projs : List (Nat × ProjectS))
    (langs : List String) (q : Nat × Nat) : Except String Bool :=
  match dget studs q.1 with
  | Except.error e => Except.error e
  | Except.ok st =>
    match dget projs q.2 with
    | Except.error e => Except.error e
    | Except.ok pr =>
      anyE (fun lp : String × Int =>
        match aget st.programing_skills lp.1 with
        | none => Except.error "TypeError"
        | some lvl => Except.ok (decide (1 ≤ lvl)))
        ((langs.zip pr.language_requirements).filter (fun lp => lp.2 == 1))

/-- Objective 5 (priority 1): sum(x for (s, p), x in vars if the student has
some required skill of the project at level at least 1). -/
def mkObj5 (studs : List (Nat × Student)) (projs : List (Nat × ProjectS))
    (langs : List String) (pairs : List (Nat × Nat)) : Except String MObj :=
  match filterE (obj5cond studs projs langs) pairs with
  | Except.error e => Except.error e
  | Except.ok kept =>
    Except.ok { index := 5, priority := 1, weight := 1,
                expr := (0, kept.map (fun q => ((1 : Int), GVar.assign q.1 q.2))) }

/-- The six setObjectiveN calls of setup_constraints, in source order. -/
def setup_objectives (inst : InstanceS) : List MObj × Option String :=
  let pairs := varPairs inst
  let studs := studentsD inst
  let projs := projectsD inst
  let n := (projectsV inst).length
  let langs := inst.programming_languages
  collectStop
    [mkObj0 studs pairs,
     mkObj1 studs pairs,
     mkObj2 n langs.length inst.projects.length inst.programming_languages.length,
     mkObj3 n inst.projects.length,
     mkObj4 n inst.projects.length,
     mkObj5 studs projs langs pairs]

/-- Result of running SEPAssignmentSolver.setup_constraints: the constraints
and objectives accumulated in the Gurobi model, and the exception that
aborted the method if one was raised. -/
structure BuildResult where
  constraints : List Constr
  objectives : List MObj
  err : Option String
deriving DecidableEq

/-- SEPAssignmentSolver.setup_constraints over the solver-assumed project
record: constraint blocks first, then the objective calls (which run only
when no constraint block raised). -/
def setup_constraints (inst : InstanceS) : BuildResult :=
  let r := setup_constraints_list inst
  match r.2 with
  | some e => { constraints := r.1, objectives := [], err := some e }
  | none =>
    let o := setup_objectives inst
    { constraints := r.1, objectives := o.1, err := o.2 }

/-- _AssignmentVariables.as_dict (solver.py lines 42-51): a dict comprehension
keyed by student id over all variables whose value exceeds EPSILON = 0.5;
the valuation is integral here, so the threshold is value >= 1. -/
def as_dict (pairs : List (Nat × Nat)) (v : GVar → Int) : List (Nat × Nat) :=
  pyDict (pairs.filter (fun q => decide (1 ≤ v (GVar.assign q.1 q.2))))

/-- SEPAssignmentSolver.solve result (solver.py line 168):
Solution(assignments=list(self._assignment_vars.as_dict().items())), with the
engine-reported variable values abstracted as the valuation v. -/
def solve (inst : InstanceS) (v : GVar → Int) : Solution :=
  { assignments := as_dict (varPairs inst) v }

/-- Number of assignments of a solution into a given project. -/
def countTo (sol : Solution) (pid : Nat) : Int :=
  ((sol.assignments.filter (fun q => q.2 == pid)).length : Int)

/-- Number of assignments of a solution for a given student id. -/
def countFrom (sol : Solution) (sid : Nat) : Int :=
  ((sol.assignments.filter (fun q => q.1 == sid)).length : Int)

/-- Capacity constraints of setup_constraints over data_schema projects
(identical to projectConstrs; only the record type differs). -/
def projectConstrsD (pairs : List (Nat × Nat)) (ps : List Project) : List Constr :=
  ps.flatMap (fun proj =>
    [Constr.le (projSum pairs proj.id) (constE proj.max),
     Constr.le (constE proj.min) (projSum pairs proj.id)])

/-- The abs_diff loop over data_schema projects (reads only id and skill,
both of which exist). -/
def absDiffStepD (studs : List (Nat × Student)) (pairs : List (Nat × Nat))
    (n : Nat) (proj : Project) : Except String (List Constr) :=
  match skillTerms studs pairs proj.id 0 with
  | Except.error e => Except.error e
  | Except.ok pterms =>
    if proj.id < n then
      match skillTerms studs pairs proj.id 1 with
      | Except.error e => Except.error e
      | Except.ok wterms =>
        Except.ok
          [Constr.le (subE wterms pterms) (sumVars [(1, GVar.abs_diff proj.id)]),
           Constr.le (subE pterms wterms) (sumVars [(1, GVar.abs_diff proj.id)])]
    else Except.error "IndexError"

/-- The skill_coverage loop over data_schema projects: the very first read of
project.language_requirements raises AttributeError, because the pydantic
model has no such field. -/
def skillCovStepD (langs : List String) (_proj : Project) : List Constr × Option String :=
  foldStop (fun _ : Nat × String =>
    (Except.error "AttributeError: language_requirements" : Except String (List Constr)))
    langs.enum

/-- The minimum-skill loop over data_schema projects: the constraint sum is
built first, then the read of project.language_requirements raises
AttributeError. -/
def minSkillStepD (studs : List (Nat × Student)) (pairs : List (Nat × Nat))
    (langs : List String) (proj : Project) : List Constr × Option String :=
  foldStop (fun kl : Nat × String =>
    match weightTerms studs pairs proj.id kl.2 with
    | Except.error e => Except.error e
    | Except.ok _ => (Except.error "AttributeError: language_requirements" :
        Except String (List Constr))) langs.enum

/-- The optimal-size loop over data_schema projects: the tupledict access is
evaluated first (KeyError when the id is out of range), then the read of
project.opt raises AttributeError. -/
def optSizeStepD (n : Nat) (proj : Project) : Except String (List Constr) :=
  if proj.id < n then Except.error "AttributeError: opt" else Except.error "KeyError"

/-- setup_constraints as it actually executes on data_schema Instances
(the types the repository really constructs): block by block in source
order, each missing-field read raising at the point the Python code reads it. -/
def setup_constraintsD (inst : Instance) : List Constr × Option String :=
  let studs := pyDict (inst.students.map (fun s => (s.id, s)))
  let projs := pyDict (inst.projects.map (fun p => (p.id, p)))
  let ps := projs.map (fun e => e.2)
  let ss := studs.map (fun e => e.2)
  let pairs := ss.flatMap (fun s => ps.map (fun p => (s.id, p.id)))
  let n := ps.length
  let langs := inst.programming_languages
  pcomp (projectConstrsD pairs ps ++ studentConstrs pairs ss, none)
    (pcomp (foldStop (absDiffStepD studs pairs n) ps)
      (pcomp (foldStopP (skillCovStepD langs) ps)
        (pcomp (foldStopP (minSkillStepD studs pairs langs) ps)
          (foldStop (optSizeStepD n) ps))))

/-- SolutionStatCalculator state (solver.py lines 196-200): the instance, the
solution and the student lookup dict built in __init__.  The projects must
carry opt and language_requirements for the methods to run at all, so the
solver-assumed record is used. -/
structure SolutionStatCalculator where
  instance_ : InstanceS
  solution : Solution
  student_lookup : List (Nat × Student)
deriving DecidableEq

/-- SolutionStatCalculator.__init__. -/
def SolutionStatCalculator.init (inst : InstanceS) (sol : Solution) :
    SolutionStatCalculator :=
  { instance_ := inst, solution := sol,
    student_lookup := pyDict (inst.students.map (fun s => (s.id, s))) }

/-- Loop of count_preferred_assignments: the comprehension
[student.projects for student in students if student.id == student_id][0]
raises IndexError when no student matches. -/
def prefLoop (students : List Student) : List (Nat × Nat) → Nat → Except String Nat
  | [], acc => Except.ok acc
  | (sid, ap) :: rest, acc =>
    match (students.filter (fun st => st.id == sid)).map (fun st => st.projects) with
    | [] => Except.error "IndexError"
    | ps :: _ => prefLoop students rest (acc + (if ap ∈ ps then 1 else 0))

/-- SolutionStatCalculator.count_preferred_assignments. -/
def count_preferred_assignments (c : SolutionStatCalculator) :
    Except String Nat × SolutionStatCalculator :=
  (prefLoop c.instance_.students c.solution.assignments 0, c)

/-- Loop of count_disliked_assignments. -/
def dislikeLoop (students : List Student) : List (Nat × Nat) → Nat → Except String Nat
  | [], acc => Except.ok acc
  | (sid, ap) :: rest, acc =>
    match (students.filter (fun st => st.id == sid)).map (fun st => st.negatives) with
    | [] => Except.error "IndexError"
    | ns :: _ => dislikeLoop students rest (acc + (if ap ∈ ns then 1 else 0))

/-- SolutionStatCalculator.count_disliked_assignments. -/
def count_disliked_assignments (c : SolutionStatCalculator) :
    Except String Nat × SolutionStatCalculator :=
  (dislikeLoop c.instance_.students c.solution.assignments 0, c)

/-- Loop of count_difference_from_optimal_size:
student_count[assigned_project] += 1 per assignment. -/
def countLoop (counts : List Int) : List (Nat × Nat) → Except String (List Int)
  | [] => Except.ok counts
  | (_, ap) :: rest =>
    match bump counts ap with
    | Except.error e => Except.error e
    | Except.ok counts2 => countLoop counts2 rest

/-- SolutionStatCalculator.count_difference_from_optimal_size (solver.py
lines 239-248): per-project absolute deviation of the assigned count from
project.opt. -/
def count_difference_from_optimal_size (c : SolutionStatCalculator) :
    Except String (List Int) × SolutionStatCalculator :=
  let n := c.instance_.projects.length
  let optimal_size := c.instance_.projects.map (fun p => p.opt)
  (match countLoop (List.replicate n 0) c.solution.assignments with
   | Except.error e => Except.error e
   | Except.ok sc =>
     Except.ok ((List.range n).map (fun i => |sc.getD i 0 - optimal_size.getD i 0|)), c)

/-- Loop of count_skillDiff_per_project: two independent conditional
increments per assignment, through the student_lookup dict. -/
def skillDiffLoop (lookup : List (Nat × Student)) (pc wc : List Int) :
    List (Nat × Nat) → Except String (List Int × List Int)
  | [] => Except.ok (pc, wc)
  | (sid, ap) :: rest =>
    match dget lookup sid with
    | Except.error e => Except.error e
    | Except.ok st =>
      match (if st.skill = 0 then bump pc ap else Except.ok pc) with
      | Except.error e => Except.error e
      | Except.ok pc2 =>
        match (if st.skill = 1 then bump wc ap else Except.ok wc) with
        | Except.error e => Except.error e
        | Except.ok wc2 => skillDiffLoop lookup pc2 wc2 rest

/-- SolutionStatCalculator.count_skillDiff_per_project: per-project absolute
difference between programmer and writer counts. -/
def count_skillDiff_per_project (c : SolutionStatCalculator) :
    Except String (List Int) × SolutionStatCalculator :=
  let n := c.instance_.projects.length
  (match skillDiffLoop c.student_lookup (List.replicate n 0) (List.replicate n 0)
      c.solution.assignments with
   | Except.error e => Except.error e
   | Except.ok pw =>
     Except.ok ((List.range n).map (fun i => |pw.1.getD i 0 - pw.2.getD i 0|)), c)

/-- Number of students in a list whose programing_skills dict maps the
language to at least 2; the dict access student.programing_skills[lang]
raises KeyError when absent. -/
def advCount (sts : List Student) (lang : String) : Except String Nat :=
  match emap (fun st =>
    match aget st.programing_skills lang with
    | none => (Except.error "KeyError" : Except String Int)
    | some lvl => Except.ok lvl) sts with
  | Except.error e => Except.error e
  | Except.ok lvls => Except.ok ((lvls.filter (fun lvl => decide (2 ≤ lvl))).length)

/-- One project of count_groups_min_2_skilled: collect the assigned students
through student_lookup, then check every required language for an advanced
member. -/
def groupStep (c : SolutionStatCalculator) (proj : ProjectS) : Except String Nat :=
  match emap (fun sid => dget c.student_lookup sid)
      ((c.solution.assignments.filter (fun q => q.2 == proj.id)).map (fun q => q.1)) with
  | Except.error e => Except.error e
  | Except.ok sts =>
    match emap (fun kl : Nat × String =>
      match listGet proj.language_requirements kl.1 with
      | Except.error e => Except.error e
      | Except.ok req =>
        if req = 1 then
          match advCount sts kl.2 with
          | Except.error e => Except.error e
          | Except.ok cnt => Except.ok (decide (cnt = 0))
        else Except.ok false) c.instance_.programming_languages.enum with
    | Except.error e => Except.error e
    | Except.ok fails => Except.ok (if fails.any (fun b => b) then 0 else 1)

/-- SolutionStatCalculator.count_groups_min_2_skilled: number of projects
with, for every required language, at least one assigned student at level
at least 2. -/
def count_groups_min_2_skilled (c : SolutionStatCalculator) :
    Except String Nat × SolutionStatCalculator :=
  (match emap (groupStep c) c.instance_.projects with
   | Except.error e => Except.error e
   | Except.ok ones => Except.ok ones.sum, c)

/-- Inner loop of potential_use for one assignment: for every
(language, index) pair, if the assigned project requires the language, add
the student's level in it; projects are indexed by assigned project id
(IndexError), the skills dict by language name (KeyError). -/
def potentialStep (inst : InstanceS) (lookup : List (Nat × Student))
    (q : Nat × Nat) : Except String Int :=
  match emap (fun lk : String × Nat =>
    match listGet inst.projects q.2 with
    | Except.error e => Except.error e
    | Except.ok pr =>
      match listGet pr.language_requirements lk.2 with
      | Except.error e => Except.error e
      | Except.ok req =>
        if req ≠ 0 then
          match dget lookup q.1 with
          | Except.error e => Except.error e
          | Except.ok st =>
            match aget st.programing_skills lk.1 with
            | none => Except.error "KeyError"
            | some lvl => Except.ok lvl
        else Except.ok 0)
    (inst.programming_languages.zip (List.range inst.programming_languages.length)) with
  | Except.error e => Except.error e
  | Except.ok lvls => Except.ok lvls.sum

/-- SolutionStatCalculator.potential_use: used potential over the overall
potential (sum of every student's skill levels). -/
def potential_use (c : SolutionStatCalculator) :
    Except String (Int × Int) × SolutionStatCalculator :=
  let overall := (c.instance_.students.map
    (fun st => (st.programing_skills.map (fun e => e.2)).sum)).sum
  (match emap (potentialStep c.instance_ c.student_lookup) c.solution.assignments with
   | Except.error e => Except.error e
   | Except.ok parts => Except.ok (parts.sum, overall), c)

/-- The statistics printStats computes, in call order: preferred count,
disliked count, per-project role imbalance, per-project size deviation,
coverage count, potential utilization. -/
def runStats (c : SolutionStatCalculator) :
    (Except String Nat × Except String Nat × Except String (List Int) ×
     Except String (List Int) × Except String Nat × Except String (Int × Int)) ×
    SolutionStatCalculator :=
  let r1 := count_preferred_assignments c
  let r2 := count_disliked_assignments r1.2
  let r3 := count_skillDiff_per_project r2.2
  let r4 := count_difference_from_optimal_size r3.2
  let r5 := count_groups_min_2_skilled r4.2
  let r6 := potential_use r5.2
  ((r1.1, r2.1, r3.1, r4.1, r5.1, r6.1), r6.2)

/-- The two process-safe numeric slots of SEPSolverProcess
(multiprocessing.Value): none models the initial float("-inf") /
float("inf") sentinel, some v a written numeric value. -/
structure SharedSlots where
  lower_bound : Option Int
  objective_value : Option Int
deriving DecidableEq

/-- The slots as SEPSolverProcess.__init__ creates them. -/
def initialSlots : SharedSlots :=
  { lower_bound := none, objective_value := none }

/-- solver_process.py lines 34-36: the update_lower_bound callback writes the
shared lower-bound slot. -/
def update_lower_bound (s : SharedSlots) (v : Int) : SharedSlots :=
  { s with lower_bound := some v }

/-- solver_process.py lines 38-40: update_upper_bound also writes
lower_bound.value (the body assigns lower_bound, not upper_bound). -/
def update_upper_bound (s : SharedSlots) (v : Int) : SharedSlots :=
  { s with lower_bound := some v }

/-- The callback keys the worker registers before calling solve
(solver_process.py lines 42-47): only "Message"; the solution callback is
commented out and neither bound updater is registered. -/
def worker_callbacks : List String := ["Message"]

/-- Events the Engine can report through the Gurobi callback. -/
inductive EngineEvent : Type
  | message (m : String)
  | boundUpdate (v : Int)
  | incumbentUpdate (v : Int)
deriving DecidableEq

/-- One Engine callback dispatch as SEPAssignmentSolver.solve installs it
(solver.py lines 155-162): only MESSAGE events reach a registered callback,
and only when the "Message" key is present; all other occasions fall
through, so the shared slots are never touched. -/
def workerDispatch (st : SharedSlots × List String) (ev : EngineEvent) :
    SharedSlots × List String :=
  match ev with
  | EngineEvent.message m =>
    if "Message" ∈ worker_callbacks then (st.1, st.2 ++ [m]) else st
  | EngineEvent.boundUpdate _ => st
  | EngineEvent.incumbentUpdate _ => st

/-- The worker processing a whole sequence of Engine callbacks. -/
def workerRun (evs : List EngineEvent) : SharedSlots × List String :=
  evs.foldl workerDispatch (initialSlots, [])

/-- SEPSolverProcess.get_current_bound: non-blocking read of the shared
lower-bound slot. -/
def get_current_bound (s : SharedSlots) : Option Int := s.lower_bound

/-- SEPSolverProcess.get_current_objective_value: non-blocking read of the
shared objective slot. -/
def get_current_objective_value (s : SharedSlots) : Option Int := s.objective_value



/-- Total form of the always-successful dict lookup self._students[s]
performed for a variable pair (the default is never reached). -/
def stOf (inst : InstanceS) (s : Nat) : Student :=
  (aget (studentsD inst) s).getD
    { id := 0, projects := [], negatives := [], skill := 0, programing_skills := [] }

/-- Total form of the dict lookup self._projects[p] for a variable pair. -/
def prOf (inst : InstanceS) (p : Nat) : ProjectS :=
  (aget (projectsD inst) p).getD
    { id := 0, min := 0, max := 0, opt := 0, language_requirements := [] }

/-- Total form of programing_skills.get(lang) on instances whose skill dicts
cover every instance language. -/
def skOf (st : Student) (lang : String) : Int :=
  (aget st.programing_skills lang).getD 0

/-- The weighted skill sum of the minimum-skill constraint, in total form. -/
def skillSumE (inst : InstanceS) (pid : Nat) (lang : String) : LinE :=
  (0, ((varPairs inst).filter (fun q => q.2 == pid)).map
    (fun q => (skOf (stOf inst q.1) lang, GVar.assign q.1 q.2)))

/-- The advanced-student sum of the skill_coverage constraint, in total form. -/
def advSumE (inst : InstanceS) (pid : Nat) (lang : String) : LinE :=
  (0, ((varPairs inst).filter (fun q => q.2 == pid)).map
    (fun q => ((if 2 ≤ skOf (stOf inst q.1) lang then (1 : Int) else 0), GVar.assign q.1 q.2)))

/-- What the abs_diff block adds for one project when nothing raises. -/
def absDiffPure (inst : InstanceS) (proj : ProjectS) : List Constr :=
  let pterms := ((varPairs inst).filter (fun q => q.2 == proj.id)).map
    (fun q => ((if (stOf inst q.1).skill = 0 then (1 : Int) else 0), GVar.assign q.1 q.2))
  let wterms := ((varPairs inst).filter (fun q => q.2 == proj.id)).map
    (fun q => ((if (stOf inst q.1).skill = 1 then (1 : Int) else 0), GVar.assign q.1 q.2))
  [Constr.le (subE wterms pterms) (sumVars [(1, GVar.abs_diff proj.id)]),
   Constr.le (subE pterms wterms) (sumVars [(1, GVar.abs_diff proj.id)])]

/-- What the skill_coverage block adds for one project when nothing raises. -/
def skillCovPure (inst : InstanceS) (proj : ProjectS) : List Constr :=
  inst.programming_languages.enum.flatMap (fun kl =>
    if proj.language_requirements.getD kl.1 0 = 1 then
      [Constr.le (sumVars [(1, GVar.skill_coverage proj.id kl.1)]) (advSumE inst proj.id kl.2)]
    else if proj.language_requirements.getD kl.1 0 = 0 then
      [Constr.eqc (sumVars [(1, GVar.skill_coverage proj.id kl.1)]) (constE 0)]
    else [])

/-- What the minimum-skill block adds for one project when nothing raises. -/
def minSkillPure (inst : InstanceS) (proj : ProjectS) : List Constr :=
  inst.programming_languages.enum.flatMap (fun kl =>
    [Constr.le (constE (proj.language_requirements.getD kl.1 0)) (skillSumE inst proj.id kl.2)])

/-- What the optimal-size block adds for one project when nothing raises. -/
def optSizePure (inst : InstanceS) (proj : ProjectS) : List Constr :=
  let s := ((varPairs inst).filter (fun q => q.2 == proj.id)).map
    (fun q => ((1 : Int), GVar.assign q.1 q.2))
  [Constr.le (-proj.opt, s) (sumVars [(1, GVar.opt_size_diff proj.id)]),
   Constr.le (proj.opt, s.map (fun t => (-t.1, t.2))) (sumVars [(1, GVar.opt_size_diff proj.id)])]

/-- Objective 0 expression in total form: reward 1 per assignment to a
project the student did not deselect, 0 for a deselected one. -/
def obj0expr (inst : InstanceS) : LinE :=
  (0, (varPairs inst).map (fun q =>
    ((if q.2 ∈ (stOf inst q.1).negatives then (0 : Int) else 1), GVar.assign q.1 q.2)))

/-- Objective 1 expression in total form: reward 2 per assignment to a
selected project, 1 otherwise. -/
def obj1expr (inst : InstanceS) : LinE :=
  (0, (varPairs inst).map (fun q =>
    ((if q.2 ∈ (stOf inst q.1).projects then (2 : Int) else 1), GVar.assign q.1 q.2)))

/-- Objective 2 expression: sum of all skill_coverage variables. -/
def obj2expr (inst : InstanceS) : LinE :=
  (0, ((List.range inst.projects.length).flatMap (fun p =>
    (List.range inst.programming_languages.length).map (fun k => (p, k)))).map
      (fun pk => ((1 : Int), GVar.skill_coverage pk.1 pk.2)))

/-- Objective 3 expression: minus the sum of the opt_size_diff variables. -/
def obj3expr (inst : InstanceS) : LinE :=
  (0, (List.range inst.projects.length).map (fun j => ((-1 : Int), GVar.opt_size_diff j)))

/-- Objective 4 expression: minus the sum of the abs_diff variables. -/
def obj4expr (inst : InstanceS) : LinE :=
  (0, (List.range inst.projects.length).map (fun j => ((-1 : Int), GVar.abs_diff j)))

/-- Total form of the objective 5 filter condition. -/
def obj5condPure (inst : InstanceS) (q : Nat × Nat) : Bool :=
  ((inst.programming_languages.zip (prOf inst q.2).language_requirements).filter
    (fun lp => lp.2 == 1)).any (fun lp => decide (1 ≤ skOf (stOf inst q.1) lp.1))

/-- Objective 5 expression in total form. -/
def obj5expr (inst : InstanceS) : LinE :=
  (0, ((varPairs inst).filter (obj5condPure inst)).map
    (fun q => ((1 : Int), GVar.assign q.1 q.2)))

/-- The six objectives as they come out when nothing raises. -/
def pureObjectives (inst : InstanceS) : List MObj :=
  [{ index := 0, priority := 6, weight := 2, expr := obj0expr inst },
   { index := 1, priority := 5, weight := 2, expr := obj1expr inst },
   { index := 2, priority := 4, weight := 1, expr := obj2expr inst },
   { index := 3, priority := 3, weight := (1 : Rat) / 2, expr := obj3expr inst },
   { index := 4, priority := 2, weight := 1, expr := obj4expr inst },
   { index := 5, priority := 1, weight := 1, expr := obj5expr inst }]

/-- The unstated id precondition: project ids are exactly the list positions
0 .. n-1 (projects[i].id == i). -/
def IdsCanonical (inst : InstanceS) : Prop :=
  ∀ i (h : i < inst.projects.length), (inst.projects.get ⟨i, h⟩).id = i

/-- Every student's skills dict covers every instance language. -/
def SkillsTotal (inst : InstanceS) : Prop :=
  ∀ st ∈ inst.students, ∀ lang ∈ inst.programming_languages,
    (aget st.programing_skills lang).isSome = true

/-- Every project's requirement vector is as long as the language list. -/
def LrLong (inst : InstanceS) : Prop :=
  ∀ pr ∈ inst.projects,
    inst.programming_languages.length ≤ pr.language_requirements.length

/-- The combined well-formedness precondition under which setup_constraints
runs to completion. -/
def WF (inst : InstanceS) : Prop := IdsCanonical inst ∧ SkillsTotal inst ∧ LrLong inst

instance (inst : InstanceS) : Decidable (IdsCanonical inst) := by
  unfold IdsCanonical
  infer_instance

instance (inst : InstanceS) : Decidable (SkillsTotal inst) := by
  unfold SkillsTotal
  infer_instance

instance (inst : InstanceS) : Decidable (LrLong inst) := by
  unfold LrLong
  infer_instance

instance (inst : InstanceS) : Decidable (WF inst) := by
  unfold WF
  infer_instance

/-- The all-zero engine valuation (used as a concrete feasible point). -/
def vZero : GVar → Int := fun _ => 0

/-- A tiny well-formed instance with one language requirement. -/
def wfInst : InstanceS :=
  { students := [{ id := 0, projects := [0], negatives := [], skill := 0,
                   programing_skills := [("java", 2)] }],
    projects := [{ id := 0, min := 0, max := 1, opt := 0, language_requirements := [1] }],
    programming_languages := ["java"] }

/-- A tiny instance with no language requirements (vZero satisfies its model). -/
def simpleInst : InstanceS :=
  { students := [{ id := 0, projects := [0], negatives := [], skill := 0,
                   programing_skills := [("java", 2)] }],
    projects := [{ id := 0, min := 0, max := 1, opt := 0, language_requirements := [] }],
    programming_languages := [] }

/-- An instance whose only project has min 2 > max 1. -/
def badMinMaxInst : InstanceS :=
  { students := [{ id := 0, projects := [0], negatives := [], skill := 0,
                   programing_skills := [] }],
    projects := [{ id := 0, min := 2, max := 1, opt := 0, language_requirements := [] }],
    programming_languages := [] }

/-- An instance whose only project has the out-of-range id 5. -/
def badIdInst : InstanceS :=
  { students := [],
    projects := [{ id := 5, min := 0, max := 1, opt := 0, language_requirements := [] }],
    programming_languages := [] }

/-- A solution assigning a student to the nonexistent project 7. -/
def badSol : Solution := { assignments := [(0, 7)] }

/-- A data_schema instance with one project (as the repository constructs). -/
def schemaInst : Instance :=
  { students := [], projects := [{ id := 0, min := 1, max := 2 }],
    programming_languages := [] }

theorem dinsert_mem {κ α : Type} [DecidableEq κ] {k : κ} {v : α} {e : κ × α} :
    ∀ {d : List (κ × α)}, e ∈ dinsert k v d → e = (k, v) ∨ e ∈ d := by
  intro d
  induction d with
  | nil => intro h; simpa [dinsert] using h
  | cons a rest ih =>
    intro h
    by_cases hk : a.1 = k
    · simp only [dinsert, if_pos hk] at h
      rcases List.mem_cons.mp h with h2 | h2
      · exact Or.inl h2
      · exact Or.inr (List.mem_cons_of_mem a h2)
    · simp only [dinsert, if_neg hk] at h
      rcases List.mem_cons.mp h with h2 | h2
      · exact Or.inr (h2 ▸ List.mem_cons_self a rest)
      · rcases ih h2 with h3 | h3
        · exact Or.inl h3
        · exact Or.inr (List.mem_cons_of_mem a h3)

theorem dinsert_keys_mem {κ α : Type} [DecidableEq κ] {k : κ} {v : α}
    {d : List (κ × α)} {x : κ} (h : x ∈ (dinsert k v d).map Prod.fst) :
    x = k ∨ x ∈ d.map Prod.fst := by
  rcases List.mem_map.mp h with ⟨e, he, hx⟩
  rcases dinsert_mem he with h2 | h2
  · left; rw [← hx, h2]
  · right; exact hx ▸ List.mem_map_of_mem Prod.fst h2

theorem dinsert_keys_nodup {κ α : Type} [DecidableEq κ] {k : κ} {v : α} :
    ∀ {d : List (κ × α)}, (d.map Prod.fst).Nodup →
      ((dinsert k v d).map Prod.fst).Nodup := by
  intro d
  induction d with
  | nil => intro _; simp [dinsert]
  | cons a rest ih =>
    intro h
    simp only [List.map_cons, List.nodup_cons] at h
    by_cases hk : a.1 = k
    · simp only [dinsert, if_pos hk, List.map_cons, List.nodup_cons]
      exact ⟨hk ▸ h.1, h.2⟩
    · simp only [dinsert, if_neg hk, List.map_cons, List.nodup_cons]
      refine ⟨fun hmem => ?_, ih h.2⟩
      rcases dinsert_keys_mem hmem with h2 | h2
      · exact hk h2
      · exact h.1 h2

theorem dinsert_ne_nil {κ α : Type} [DecidableEq κ] (k : κ) (v : α)
    (d : List (κ × α)) : dinsert k v d ≠ [] := by
  cases d with
  | nil => simp [dinsert]
  | cons a rest =>
    by_cases hk : a.1 = k <;> simp [dinsert, hk]

theorem dinsert_not_mem_keys {κ α : Type} [DecidableEq κ] {k : κ} (v : α) :
    ∀ {d : List (κ × α)}, k ∉ d.map Prod.fst → dinsert k v d = d ++ [(k, v)] := by
  intro d
  induction d with
  | nil => intro _; simp [dinsert]
  | cons a rest ih =>
    intro h
    simp only [List.map_cons, List.mem_cons, not_or] at h
    have hk : a.1 ≠ k := fun he => h.1 he.symm
    simp only [dinsert, if_neg hk, List.cons_append, List.cons.injEq, true_and]
    exact ih h.2

theorem foldl_dinsert_mem {κ α : Type} [DecidableEq κ] {e : κ × α} :
    ∀ (l : List (κ × α)) (d : List (κ × α)),
      e ∈ l.foldl (fun d kv => dinsert kv.1 kv.2 d) d → e ∈ d ∨ e ∈ l := by
  intro l
  induction l with
  | nil => intro d h; exact Or.inl h
  | cons kv rest ih =>
    intro d h
    rcases ih (dinsert kv.1 kv.2 d) h with h2 | h2
    · rcases dinsert_mem h2 with h3 | h3
      · exact Or.inr (h3 ▸ List.mem_cons_self kv rest)
      · exact Or.inl h3
    · exact Or.inr (List.mem_cons_of_mem kv h2)

/-- Every entry of a Python dict is one of the inserted bindings. -/
theorem pyDict_mem {κ α : Type} [DecidableEq κ] {l : List (κ × α)} {e : κ × α}
    (h : e ∈ pyDict l) : e ∈ l := by
  rcases foldl_dinsert_mem l [] h with h2 | h2
  · cases h2
  · exact h2

theorem foldl_dinsert_keys_nodup {κ α : Type} [DecidableEq κ] :
    ∀ (l : List (κ × α)) (d : List (κ × α)), (d.map Prod.fst).Nodup →
      ((l.foldl (fun d kv => dinsert kv.1 kv.2 d) d).map Prod.fst).Nodup := by
  intro l
  induction l with
  | nil => intro d h; exact h
  | cons kv rest ih => intro d h; exact ih _ (dinsert_keys_nodup h)

/-- The keys of a Python dict are pairwise distinct. -/
theorem pyDict_keys_nodup {κ α : Type} [DecidableEq κ] (l : List (κ × α)) :
    ((pyDict l).map Prod.fst).Nodup :=
  foldl_dinsert_keys_nodup l [] (by simp)

theorem foldl_dinsert_of_nodup {κ α : Type} [DecidableEq κ] :
    ∀ (l : List (κ × α)) (d : List (κ × α)), ((d ++ l).map Prod.fst).Nodup →
      l.foldl (fun d kv => dinsert kv.1 kv.2 d) d = d ++ l := by
  intro l
  induction l with
  | nil => intro d _; simp
  | cons kv rest ih =>
    intro d h
    have hk : kv.1 ∉ d.map Prod.fst := by
      intro hmem
      have h2 := h
      simp only [List.map_append, List.nodup_append] at h2
      exact h2.2.2 hmem (by simp)
    have step : dinsert kv.1 kv.2 d = d ++ [kv] := dinsert_not_mem_keys kv.2 hk
    have h2 : (((d ++ [kv]) ++ rest).map Prod.fst).Nodup := by
      simpa [List.append_assoc] using h
    calc (kv :: rest).foldl (fun d kv => dinsert kv.1 kv.2 d) d
        = rest.foldl (fun d kv => dinsert kv.1 kv.2 d) (d ++ [kv]) := by
          simp [List.foldl_cons, step]
      _ = (d ++ [kv]) ++ rest := ih _ h2
      _ = d ++ (kv :: rest) := by simp

/-- Building a Python dict from bindings with distinct keys is the identity. -/
theorem pyDict_eq_self {κ α : Type} [DecidableEq κ] {l : List (κ × α)}
    (h : (l.map Prod.fst).Nodup) : pyDict l = l := by
  simpa using foldl_dinsert_of_nodup l [] (by simpa using h)

theorem foldl_dinsert_ne_nil {κ α : Type} [DecidableEq κ] :
    ∀ (l : List (κ × α)) (d : List (κ × α)), d ≠ [] →
      l.foldl (fun d kv => dinsert kv.1 kv.2 d) d ≠ [] := by
  intro l
  induction l with
  | nil => intro d h; exact h
  | cons kv rest ih => intro d _; exact ih _ (dinsert_ne_nil kv.1 kv.2 d)

/-- A Python dict built from at least one binding is nonempty. -/
theorem pyDict_ne_nil {κ α : Type} [DecidableEq κ] {l : List (κ × α)}
    (h : l ≠ []) : pyDict l ≠ [] := by
  cases l with
  | nil => exact absurd rfl h
  | cons kv rest => exact foldl_dinsert_ne_nil rest _ (dinsert_ne_nil kv.1 kv.2 [])

theorem aget_of_mem {κ α : Type} [DecidableEq κ] {k : κ} {v : α} :
    ∀ {d : List (κ × α)}, (d.map Prod.fst).Nodup → (k, v) ∈ d →
      aget d k = some v := by
  intro d
  induction d with
  | nil => intro _ h; cases h
  | cons e rest ih =>
    intro hnd h
    simp only [List.map_cons, List.nodup_cons] at hnd
    rcases List.mem_cons.mp h with h2 | h2
    · rw [← h2]
      simp [aget]
    · have hk : e.1 ≠ k := by
        intro he
        exact hnd.1 (he ▸ List.mem_map_of_mem Prod.fst h2)
      simp only [aget, if_neg hk]
      exact ih hnd.2 h2

theorem studentsD_entry {inst : InstanceS} {e : Nat × Student}
    (h : e ∈ studentsD inst) : e.2.id = e.1 ∧ e.2 ∈ inst.students := by
  rcases List.mem_map.mp (pyDict_mem h) with ⟨st, hst, he⟩
  rw [← he]
  exact ⟨rfl, hst⟩

theorem projectsD_entry {inst : InstanceS} {e : Nat × ProjectS}
    (h : e ∈ projectsD inst) : e.2.id = e.1 ∧ e.2 ∈ inst.projects := by
  rcases List.mem_map.mp (pyDict_mem h) with ⟨pr, hpr, he⟩
  rw [← he]
  exact ⟨rfl, hpr⟩

theorem studentsV_sub {inst : InstanceS} {st : Student}
    (h : st ∈ studentsV inst) : st ∈ inst.students := by
  rcases List.mem_map.mp h with ⟨e, he, hst⟩
  exact hst ▸ (studentsD_entry he).2

theorem projectsV_sub {inst : InstanceS} {pr : ProjectS}
    (h : pr ∈ projectsV inst) : pr ∈ inst.projects := by
  rcases List.mem_map.mp h with ⟨e, he, hpr⟩
  exact hpr ▸ (projectsD_entry he).2

/-- The ids of the deduplicated student values are the dict keys. -/
theorem studentsV_ids (inst : InstanceS) :
    (studentsV inst).map (fun st => st.id) = (studentsD inst).map Prod.fst := by
  unfold studentsV
  rw [List.map_map]
  apply List.map_congr_left
  intro e he
  exact (studentsD_entry he).1

theorem projectsV_ids (inst : InstanceS) :
    (projectsV inst).map (fun pr => pr.id) = (projectsD inst).map Prod.fst := by
  unfold projectsV
  rw [List.map_map]
  apply List.map_congr_left
  intro e he
  exact (projectsD_entry he).1

theorem studentsV_ids_nodup (inst : InstanceS) :
    ((studentsV inst).map (fun st => st.id)).Nodup := by
  rw [studentsV_ids]
  exact pyDict_keys_nodup _

theorem projectsV_ids_nodup (inst : InstanceS) :
    ((projectsV inst).map (fun pr => pr.id)).Nodup := by
  rw [projectsV_ids]
  exact pyDict_keys_nodup _

/-- Looking a dict value back up by its own id succeeds and returns it. -/
theorem aget_studentsD {inst : InstanceS} {st : Student}
    (h : st ∈ studentsV inst) : aget (studentsD inst) st.id = some st := by
  rcases List.mem_map.mp h with ⟨e, he, hst⟩
  have hid : st.id = e.1 := hst ▸ (studentsD_entry he).1
  have : (e.1, st) ∈ studentsD inst := by
    have : e = (e.1, st) := by
      rcases e with ⟨k, v⟩
      simp only at hst
      rw [hst]
    exact this ▸ he
  rw [hid]
  exact aget_of_mem (pyDict_keys_nodup _) this

theorem aget_projectsD {inst : InstanceS} {pr : ProjectS}
    (h : pr ∈ projectsV inst) : aget (projectsD inst) pr.id = some pr := by
  rcases List.mem_map.mp h with ⟨e, he, hpr⟩
  have hid : pr.id = e.1 := hpr ▸ (projectsD_entry he).1
  have : (e.1, pr) ∈ projectsD inst := by
    have : e = (e.1, pr) := by
      rcases e with ⟨k, v⟩
      simp only at hpr
      rw [hpr]
    exact this ▸ he
  rw [hid]
  exact aget_of_mem (pyDict_keys_nodup _) this

theorem varPairs_mem {inst : InstanceS} {q : Nat × Nat} (h : q ∈ varPairs inst) :
    ∃ st ∈ studentsV inst, ∃ pr ∈ projectsV inst, q = (st.id, pr.id) := by
  rcases List.mem_flatMap.mp h with ⟨st, hst, hq⟩
  rcases List.mem_map.mp hq with ⟨pr, hpr, he⟩
  exact ⟨st, hst, pr, hpr, he.symm⟩

/-- The students dict lookup performed for every variable pair succeeds. -/
theorem dget_varPairs {inst : InstanceS} {q : Nat × Nat} (h : q ∈ varPairs inst) :
    ∃ st, dget (studentsD inst) q.1 = Except.ok st ∧ st.id = q.1 ∧
      st ∈ inst.students := by
  rcases varPairs_mem h with ⟨st, hst, pr, hpr, he⟩
  refine ⟨st, ?_, by rw [he], studentsV_sub hst⟩
  have := aget_studentsD hst
  rw [he]
  simp only [dget, this]

/-- The projects dict lookup performed for every variable pair succeeds. -/
theorem dget_varPairs_proj {inst : InstanceS} {q : Nat × Nat}
    (h : q ∈ varPairs inst) :
    ∃ pr, dget (projectsD inst) q.2 = Except.ok pr ∧ pr.id = q.2 ∧
      pr ∈ inst.projects := by
  rcases varPairs_mem h with ⟨st, hst, pr, hpr, he⟩
  refine ⟨pr, ?_, by rw [he], projectsV_sub hpr⟩
  have := aget_projectsD hpr
  rw [he]
  simp only [dget, this]

theorem emap_ok {α β : Type} {f : α → Except String β} {g : α → β} :
    ∀ {l : List α}, (∀ a ∈ l, f a = Except.ok (g a)) →
      emap f l = Except.ok (l.map g) := by
  intro l
  induction l with
  | nil => intro _; simp [emap]
  | cons a rest ih =>
    intro h
    have ha := h a (List.mem_cons_self a rest)
    have hrest := ih (fun x hx => h x (List.mem_cons_of_mem a hx))
    simp [emap, ha, hrest]

theorem foldStop_ok {α β : Type} {f : α → Except String (List β)} {g : α → List β} :
    ∀ {l : List α}, (∀ a ∈ l, f a = Except.ok (g a)) →
      foldStop f l = (l.flatMap g, none) := by
  intro l
  induction l with
  | nil => intro _; simp [foldStop]
  | cons a rest ih =>
    intro h
    have ha := h a (List.mem_cons_self a rest)
    have hrest := ih (fun x hx => h x (List.mem_cons_of_mem a hx))
    simp [foldStop, ha, hrest]

theorem foldStopP_ok {α β : Type} {f : α → List β × Option String} {g : α → List β} :
    ∀ {l : List α}, (∀ a ∈ l, f a = (g a, none)) →
      foldStopP f l = (l.flatMap g, none) := by
  intro l
  induction l with
  | nil => intro _; simp [foldStopP]
  | cons a rest ih =>
    intro h
    have ha := h a (List.mem_cons_self a rest)
    have hrest := ih (fun x hx => h x (List.mem_cons_of_mem a hx))
    simp [foldStopP, ha, hrest]

theorem anyE_ok {α : Type} {f : α → Except String Bool} {g : α → Bool} :
    ∀ {l : List α}, (∀ a ∈ l, f a = Except.ok (g a)) →
      anyE f l = Except.ok (l.any g) := by
  intro l
  induction l with
  | nil => intro _; simp [anyE]
  | cons a rest ih =>
    intro h
    have ha := h a (List.mem_cons_self a rest)
    have hrest := ih (fun x hx => h x (List.mem_cons_of_mem a hx))
    cases hg : g a with
    | true => simp [anyE, ha, hg]
    | false => simp [anyE, ha, hg, hrest]

theorem filterE_ok {α : Type} {f : α → Except String Bool} {g : α → Bool} :
    ∀ {l : List α}, (∀ a ∈ l, f a = Except.ok (g a)) →
      filterE f l = Except.ok (l.filter g) := by
  intro l
  induction l with
  | nil => intro _; simp [filterE]
  | cons a rest ih =>
    intro h
    have ha := h a (List.mem_cons_self a rest)
    have hrest := ih (fun x hx => h x (List.mem_cons_of_mem a hx))
    cases hg : g a with
    | true => simp [filterE, ha, hg, hrest, List.filter_cons, hg]
    | false => simp [filterE, ha, hg, hrest, List.filter_cons, hg]

/-- Constraints added before later blocks stay in the model. -/
theorem pcomp_mem_left {α : Type} {x y : List α × Option String} {c : α}
    (h : c ∈ x.1) : c ∈ (pcomp x y).1 := by
  unfold pcomp
  cases hx : x.2 with
  | none => exact List.mem_append_left _ h
  | some e => exact h

theorem pcomp_none {α : Type} {x y : List α × Option String}
    (h : (pcomp x y).2 = none) : x.2 = none ∧ y.2 = none := by
  unfold pcomp at h
  cases hx : x.2 with
  | none => rw [hx] at h; exact ⟨rfl, h⟩
  | some e =>
    exfalso
    rw [hx] at h
    dsimp only at h
    rw [hx] at h
    exact Option.noConfusion h

theorem pcomp_ok {α : Type} {x y : List α × Option String}
    (hx : x.2 = none) (hy : y.2 = none) :
    pcomp x y = (x.1 ++ y.1, none) := by
  unfold pcomp
  rw [hx, hy]

/-- An engine valuation that assigns the binary variables 0/1 values. -/
def Binary (v : GVar → Int) : Prop :=
  ∀ s p, v (GVar.assign s p) = 0 ∨ v (GVar.assign s p) = 1

theorem evalL_zero_cons (v : GVar → Int) (t : Int × GVar) (ts : List (Int × GVar)) :
    evalL v (0, t :: ts) = t.1 * v t.2 + evalL v (0, ts) := by
  simp [evalL]

/-- Under a binary valuation, a unit-coefficient sum over variable pairs
evaluates to the number of pairs whose variable is set. -/
theorem evalL_unit_sum {v : GVar → Int} (hb : Binary v) :
    ∀ (sub : List (Nat × Nat)),
      evalL v (0, sub.map (fun q => ((1 : Int), GVar.assign q.1 q.2))) =
        ((sub.filter (fun q => decide (1 ≤ v (GVar.assign q.1 q.2)))).length : Int) := by
  intro sub
  induction sub with
  | nil => simp [evalL]
  | cons a rest ih =>
    rw [List.map_cons, evalL_zero_cons, ih]
    rcases hb a.1 a.2 with h | h
    · have hk : (decide (1 ≤ v (GVar.assign a.1 a.2))) = false := by simp [h]
      rw [List.filter_cons, hk]
      simp [h]
    · have hk : (decide (1 ≤ v (GVar.assign a.1 a.2))) = true := by simp [h]
      rw [List.filter_cons, hk, if_pos rfl]
      simp only [List.length_cons, h, one_mul, Nat.cast_add, Nat.cast_one]
      ring

/-- For an element of a list with pairwise-distinct images, filtering on its
image keeps exactly that element. -/
theorem filter_eq_single_of_nodup {α : Type} {f : α → Nat} :
    ∀ {l : List α}, (l.map f).Nodup → ∀ {a : α}, a ∈ l →
      l.filter (fun b => f b == f a) = [a] := by
  intro l
  induction l with
  | nil => intro _ a ha; cases ha
  | cons x rest ih =>
    intro hnd a ha
    simp only [List.map_cons, List.nodup_cons] at hnd
    rcases List.mem_cons.mp ha with h2 | h2
    · rw [h2]
      rw [List.filter_cons]
      simp only [beq_self_eq_true, if_pos]
      have hrest : rest.filter (fun b => f b == f x) = [] := by
        apply List.filter_eq_nil_iff.mpr
        intro b hb hfb
        apply hnd.1
        have hfe : f b = f x := by simpa using hfb
        rw [← hfe]
        exact List.mem_map_of_mem f hb
      simp [hrest]
    · have hne : f x ≠ f a := by
        intro he
        exact hnd.1 (he ▸ List.mem_map_of_mem f h2)
      rw [List.filter_cons]
      simp only [beq_iff_eq, hne, if_neg, ite_false]
      exact ih hnd.2 h2

/-- Filtering the variable pairs to one student id (with pairwise-distinct
student ids) keeps exactly that student's block of pairs. -/
theorem varPairs_filter_student :
    ∀ (ss : List Student) (ps : List ProjectS), ((ss.map (fun s => s.id)).Nodup) →
      ∀ {st : Student}, st ∈ ss →
        ((ss.flatMap (fun s => ps.map (fun p => (s.id, p.id)))).filter
          (fun q => q.1 == st.id)) = ps.map (fun p => (st.id, p.id)) := by
  intro ss ps
  induction ss with
  | nil => intro _ st hst; cases hst
  | cons s rest ih =>
    intro hnd st hst
    simp only [List.map_cons, List.nodup_cons] at hnd
    rw [List.flatMap_cons, List.filter_append]
    rcases List.mem_cons.mp hst with h2 | h2
    · have hhead : (ps.map (fun p => (s.id, p.id))).filter (fun q => q.1 == st.id) =
          ps.map (fun p => (st.id, p.id)) := by
        rw [← h2]
        rw [List.filter_map]
        simp [Function.comp_def]
      have htail : ((rest.flatMap (fun s => ps.map (fun p => (s.id, p.id)))).filter
          (fun q => q.1 == st.id)) = [] := by
        apply List.filter_eq_nil_iff.mpr
        intro q hq hq2
        rcases List.mem_flatMap.mp hq with ⟨s2, hs2, hq3⟩
        rcases List.mem_map.mp hq3 with ⟨p2, _, he⟩
        have hq1 : q.1 = s2.id := by rw [← he]
        have hqs : q.1 = st.id := by simpa using hq2
        have hid : s2.id = s.id := by rw [← hq1, hqs, h2]
        exact hnd.1 (hid ▸ List.mem_map_of_mem (fun s => s.id) hs2)
      rw [hhead, htail, List.append_nil]
    · have hne : s.id ≠ st.id := by
        intro he
        have : st.id ∈ rest.map (fun s => s.id) :=
          List.mem_map_of_mem (fun s => s.id) h2
        exact hnd.1 (he ▸ this)
      have hhead : (ps.map (fun p => (s.id, p.id))).filter (fun q => q.1 == st.id) = [] := by
        apply List.filter_eq_nil_iff.mpr
        intro q hq hq2
        rcases List.mem_map.mp hq with ⟨p2, _, he⟩
        apply hne
        rw [← he] at hq2
        simpa using hq2
      rw [hhead, List.nil_append]
      exact ih hnd.2 h2

theorem varPairs_filter_project_aux (ps : List ProjectS) {pr : ProjectS}
    (hnd : (ps.map (fun p => p.id)).Nodup) (hpr : pr ∈ ps) :
    ∀ (ss : List Student),
      ((ss.flatMap (fun s => ps.map (fun p => (s.id, p.id)))).filter
        (fun q => q.2 == pr.id)) = ss.map (fun s => (s.id, pr.id)) := by
  intro ss
  induction ss with
  | nil => simp
  | cons s rest ih =>
    rw [List.flatMap_cons, List.filter_append, ih, List.map_cons]
    have hhead : (List.map (fun p => (s.id, p.id)) ps).filter (fun q => q.2 == pr.id) =
        [(s.id, pr.id)] := by
      rw [List.filter_map]
      have : ps.filter ((fun q : Nat × Nat => q.2 == pr.id) ∘ fun p => (s.id, p.id)) =
          ps.filter (fun b => b.id == pr.id) := rfl
      rw [this, filter_eq_single_of_nodup hnd hpr]
      simp
    rw [hhead]
    simp

/-- Filtering the variable pairs to one project id (with pairwise-distinct
project ids) keeps exactly one pair per deduplicated student. -/
theorem varPairs_filter_project {inst : InstanceS} {pr : ProjectS}
    (hpr : pr ∈ projectsV inst) :
    (varPairs inst).filter (fun q => q.2 == pr.id) =
      (studentsV inst).map (fun s => (s.id, pr.id)) :=
  varPairs_filter_project_aux (projectsV inst) (projectsV_ids_nodup inst) hpr
    (studentsV inst)

theorem nodup_of_length_le_one {α : Type} : ∀ {l : List α}, l.length ≤ 1 → l.Nodup := by
  intro l h
  cases l with
  | nil => exact List.nodup_nil
  | cons a rest =>
    cases rest with
    | nil => exact List.nodup_singleton a
    | cons b rest2 =>
      exfalso
      simp only [List.length_cons] at h
      omega

theorem flatMap_fst_nodup :
    ∀ (ss : List Student) (g : Student → List (Nat × Nat)),
      ((ss.map (fun s => s.id)).Nodup) →
      (∀ s ∈ ss, ∀ q ∈ g s, q.1 = s.id) →
      (∀ s ∈ ss, (g s).length ≤ 1) →
      ((ss.flatMap g).map Prod.fst).Nodup := by
  intro ss
  induction ss with
  | nil => intro g _ _ _; simp
  | cons s rest ih =>
    intro g hnd hfst hlen
    simp only [List.map_cons, List.nodup_cons] at hnd
    rw [List.flatMap_cons, List.map_append]
    rw [List.nodup_append]
    refine ⟨?_, ?_, ?_⟩
    · apply nodup_of_length_le_one
      rw [List.length_map]
      exact hlen s (List.mem_cons_self s rest)
    · exact ih g hnd.2
        (fun s2 hs2 => hfst s2 (List.mem_cons_of_mem s hs2))
        (fun s2 hs2 => hlen s2 (List.mem_cons_of_mem s hs2))
    · intro x hx hx2
      rcases List.mem_map.mp hx with ⟨q, hq, hxq⟩
      have hxs : x = s.id := hxq ▸ hfst s (List.mem_cons_self s rest) q hq
      rcases List.mem_map.mp hx2 with ⟨q2, hq2, hxq2⟩
      rcases List.mem_flatMap.mp hq2 with ⟨s2, hs2, hq3⟩
      have hxs2 : x = s2.id := hxq2 ▸ hfst s2 (List.mem_cons_of_mem s hs2) q2 hq3
      apply hnd.1
      rw [← hxs, hxs2]
      exact List.mem_map_of_mem (fun s => s.id) hs2

theorem setup_constraints_constraints (inst : InstanceS) :
    (setup_constraints inst).constraints = (setup_constraints_list inst).1 := by
  unfold setup_constraints
  cases h : (setup_constraints_list inst).2 <;> simp [h]

theorem setup_constraints_err (inst : InstanceS)
    (h1 : (setup_constraints_list inst).2 = none)
    (h2 : (setup_objectives inst).2 = none) :
    (setup_constraints inst).err = none := by
  unfold setup_constraints
  simp only []
  rw [h1]
  exact h2

theorem setup_constraints_objectives (inst : InstanceS)
    (h1 : (setup_constraints_list inst).2 = none) :
    (setup_constraints inst).objectives = (setup_objectives inst).1 := by
  unfold setup_constraints
  simp only []
  rw [h1]

/-- The two capacity constraints of every (deduplicated) project are in the
model, whatever happens in the later blocks. -/
theorem capacity_constraints_mem {inst : InstanceS} {pr : ProjectS}
    (hpr : pr ∈ projectsV inst) :
    Constr.le (projSum (varPairs inst) pr.id) (constE pr.max) ∈
      (setup_constraints inst).constraints ∧
    Constr.le (constE pr.min) (projSum (varPairs inst) pr.id) ∈
      (setup_constraints inst).constraints := by
  rw [setup_constraints_constraints]
  unfold setup_constraints_list
  constructor <;>
  · apply pcomp_mem_left
    apply List.mem_append_left
    apply List.mem_flatMap.mpr
    exact ⟨pr, hpr, by simp⟩

/-- The at-most-one constraint of every (deduplicated) student is in the
model, whatever happens in the later blocks. -/
theorem student_constraint_mem {inst : InstanceS} {st : Student}
    (hst : st ∈ studentsV inst) :
    Constr.le (studSum (varPairs inst) st.id) (constE 1) ∈
      (setup_constraints inst).constraints := by
  rw [setup_constraints_constraints]
  unfold setup_constraints_list
  apply pcomp_mem_left
  apply List.mem_append_right
  exact List.mem_map_of_mem _ hst

theorem dget_ok_iff {κ α : Type} [DecidableEq κ] {d : List (κ × α)} {k : κ} {v : α} :
    dget d k = Except.ok v ↔ aget d k = some v := by
  unfold dget
  cases aget d k <;> simp

theorem ids_map_range {inst : InstanceS} (h : IdsCanonical inst) :
    inst.projects.map (fun p => p.id) = List.range inst.projects.length := by
  apply List.ext_get (by simp)
  intro i h1 h2
  rw [List.get_map]
  simp only [List.get_range]
  exact h i (by simpa using h1)

/-- Under canonical ids the project dict deduplicates nothing. -/
theorem projectsV_eq {inst : InstanceS} (h : IdsCanonical inst) :
    projectsV inst = inst.projects := by
  unfold projectsV projectsD
  rw [pyDict_eq_self]
  · rw [List.map_map]
    have : (Prod.snd ∘ fun p : ProjectS => (p.id, p)) = id := rfl
    rw [this, List.map_id]
  · rw [List.map_map]
    have : (Prod.fst ∘ fun p : ProjectS => (p.id, p)) = fun p => p.id := rfl
    rw [this, ids_map_range h]
    exact List.nodup_range _

theorem proj_id_lt {inst : InstanceS} (h : IdsCanonical inst) {pr : ProjectS}
    (hpr : pr ∈ projectsV inst) : pr.id < (projectsV inst).length := by
  rw [projectsV_eq h] at hpr ⊢
  rcases List.mem_iff_get.mp hpr with ⟨i, hi⟩
  rcases i with ⟨iv, hv⟩
  have h2 := h iv hv
  rw [← hi, h2]
  exact hv

theorem skills_some {inst : InstanceS} (hsk : SkillsTotal inst) {st : Student}
    (hst : st ∈ inst.students) {lang : String}
    (hl : lang ∈ inst.programming_languages) :
    aget st.programing_skills lang = some (skOf st lang) := by
  have h := hsk st hst lang hl
  unfold skOf
  cases ha : aget st.programing_skills lang with
  | none => rw [ha] at h; cases h
  | some lvl => simp [ha]

theorem stOf_of_dget {inst : InstanceS} {s : Nat} {st : Student}
    (h : dget (studentsD inst) s = Except.ok st) : stOf inst s = st := by
  unfold stOf
  rw [dget_ok_iff.mp h]
  rfl

theorem prOf_of_dget {inst : InstanceS} {p : Nat} {pr : ProjectS}
    (h : dget (projectsD inst) p = Except.ok pr) : prOf inst p = pr := by
  unfold prOf
  rw [dget_ok_iff.mp h]
  rfl

theorem skillTerms_ok (inst : InstanceS) (pid : Nat) (sk : Nat) :
    skillTerms (studentsD inst) (varPairs inst) pid sk =
      Except.ok (((varPairs inst).filter (fun q => q.2 == pid)).map
        (fun q => ((if (stOf inst q.1).skill = sk then (1 : Int) else 0),
          GVar.assign q.1 q.2))) := by
  unfold skillTerms
  apply emap_ok
  intro q hq
  rcases dget_varPairs (List.mem_of_mem_filter hq) with ⟨st, hst, _, _⟩
  rw [hst, stOf_of_dget hst]

theorem advTerms_ok {inst : InstanceS} (hsk : SkillsTotal inst) (pid : Nat)
    {lang : String} (hl : lang ∈ inst.programming_languages) :
    advTerms (studentsD inst) (varPairs inst) pid lang =
      Except.ok (((varPairs inst).filter (fun q => q.2 == pid)).map
        (fun q => ((if 2 ≤ skOf (stOf inst q.1) lang then (1 : Int) else 0),
          GVar.assign q.1 q.2))) := by
  unfold advTerms
  apply emap_ok
  intro q hq
  rcases dget_varPairs (List.mem_of_mem_filter hq) with ⟨st, hst, _, hmem⟩
  rw [hst]
  dsimp only
  rw [skills_some hsk hmem hl, stOf_of_dget hst]

theorem weightTerms_ok {inst : InstanceS} (hsk : SkillsTotal inst) (pid : Nat)
    {lang : String} (hl : lang ∈ inst.programming_languages) :
    weightTerms (studentsD inst) (varPairs inst) pid lang =
      Except.ok (((varPairs inst).filter (fun q => q.2 == pid)).map
        (fun q => (skOf (stOf inst q.1) lang, GVar.assign q.1 q.2))) := by
  unfold weightTerms
  apply emap_ok
  intro q hq
  rcases dget_varPairs (List.mem_of_mem_filter hq) with ⟨st, hst, _, hmem⟩
  rw [hst]
  dsimp only
  rw [skills_some hsk hmem hl, stOf_of_dget hst]

theorem listGet_ok {α : Type} {l : List α} {i : Nat} (h : i < l.length) (d : α) :
    listGet l i = Except.ok (l.getD i d) := by
  unfold listGet
  rw [dif_pos h]
  rw [List.getD_eq_get l d h]

theorem absDiffStep_ok {inst : InstanceS} (hcan : IdsCanonical inst)
    {proj : ProjectS} (hproj : proj ∈ projectsV inst) :
    absDiffStep (studentsD inst) (varPairs inst) (projectsV inst).length proj =
      Except.ok (absDiffPure inst proj) := by
  unfold absDiffStep
  rw [skillTerms_ok]
  dsimp only
  rw [if_pos (proj_id_lt hcan hproj), skillTerms_ok]
  rfl

theorem skillCovStep_ok {inst : InstanceS} (hwf : WF inst) {proj : ProjectS}
    (hproj : proj ∈ projectsV inst) :
    skillCovStep (studentsD inst) (varPairs inst) (projectsV inst).length
      inst.programming_languages proj = (skillCovPure inst proj, none) := by
  obtain ⟨hcan, hsk, hlr⟩ := hwf
  unfold skillCovStep skillCovPure
  apply foldStop_ok
  intro kl hkl
  rw [List.enum_eq_zip_range] at hkl
  have hk1 : kl.1 < inst.programming_languages.length := by
    simpa using List.mem_range.mp (List.of_mem_zip hkl).1
  have hk2 : kl.2 ∈ inst.programming_languages := (List.of_mem_zip hkl).2
  have hlt : kl.1 < proj.language_requirements.length :=
    lt_of_lt_of_le hk1 (hlr proj (projectsV_sub hproj))
  rw [listGet_ok hlt 0]
  dsimp only
  by_cases h1 : proj.language_requirements.getD kl.1 0 = 1
  · rw [if_pos h1, if_pos h1, advTerms_ok hsk _ hk2]
    dsimp only
    rw [if_pos (proj_id_lt hcan hproj)]
    rfl
  · rw [if_neg h1, if_neg h1]
    by_cases h0 : proj.language_requirements.getD kl.1 0 = 0
    · rw [if_pos h0, if_pos h0, if_pos (proj_id_lt hcan hproj)]
    · rw [if_neg h0, if_neg h0]

theorem minSkillStep_ok {inst : InstanceS} (hwf : WF inst) {proj : ProjectS}
    (hproj : proj ∈ projectsV inst) :
    minSkillStep (studentsD inst) (varPairs inst) inst.programming_languages proj =
      (minSkillPure inst proj, none) := by
  obtain ⟨hcan, hsk, hlr⟩ := hwf
  unfold minSkillStep minSkillPure
  apply foldStop_ok
  intro kl hkl
  rw [List.enum_eq_zip_range] at hkl
  have hk1 : kl.1 < inst.programming_languages.length := by
    simpa using List.mem_range.mp (List.of_mem_zip hkl).1
  have hk2 : kl.2 ∈ inst.programming_languages := (List.of_mem_zip hkl).2
  have hlt : kl.1 < proj.language_requirements.length :=
    lt_of_lt_of_le hk1 (hlr proj (projectsV_sub hproj))
  rw [weightTerms_ok hsk _ hk2]
  dsimp only
  rw [listGet_ok hlt 0]
  rfl

theorem optSizeStep_ok {inst : InstanceS} (hcan : IdsCanonical inst)
    {proj : ProjectS} (hproj : proj ∈ projectsV inst) :
    optSizeStep (varPairs inst) (projectsV inst).length proj =
      Except.ok (optSizePure inst proj) := by
  unfold optSizeStep optSizePure
  rw [if_pos (proj_id_lt hcan hproj)]

/-- Under the well-formedness precondition, setup_constraints finishes all
six constraint blocks without an exception, producing exactly the pure
per-block constraint lists. -/
theorem setup_constraints_list_ok {inst : InstanceS} (hwf : WF inst) :
    setup_constraints_list inst =
      ((projectConstrs (varPairs inst) (projectsV inst) ++
        studentConstrs (varPairs inst) (studentsV inst)) ++
       ((projectsV inst).flatMap (absDiffPure inst) ++
        ((projectsV inst).flatMap (skillCovPure inst) ++
         ((projectsV inst).flatMap (minSkillPure inst) ++
          (projectsV inst).flatMap (optSizePure inst)))), none) := by
  unfold setup_constraints_list
  dsimp only
  rw [foldStop_ok (fun pr hpr => absDiffStep_ok hwf.1 hpr)]
  rw [foldStopP_ok (fun pr hpr => skillCovStep_ok hwf hpr)]
  rw [foldStopP_ok (fun pr hpr => minSkillStep_ok hwf hpr)]
  rw [foldStop_ok (fun pr hpr => optSizeStep_ok hwf.1 hpr)]
  rfl

theorem mkObj0_ok (inst : InstanceS) :
    mkObj0 (studentsD inst) (varPairs inst) =
      Except.ok { index := 0, priority := 6, weight := 2, expr := obj0expr inst } := by
  unfold mkObj0
  rw [emap_ok (g := fun q => ((if q.2 ∈ (stOf inst q.1).negatives then (0 : Int) else 1),
      GVar.assign q.1 q.2)) (fun q hq => by
    rcases dget_varPairs hq with ⟨st, hst, _, _⟩
    rw [hst]
    dsimp only
    rw [stOf_of_dget hst])]
  rfl

theorem mkObj1_ok (inst : InstanceS) :
    mkObj1 (studentsD inst) (varPairs inst) =
      Except.ok { index := 1, priority := 5, weight := 2, expr := obj1expr inst } := by
  unfold mkObj1
  rw [emap_ok (g := fun q => ((if q.2 ∈ (stOf inst q.1).projects then (2 : Int) else 1),
      GVar.assign q.1 q.2)) (fun q hq => by
    rcases dget_varPairs hq with ⟨st, hst, _, _⟩
    rw [hst]
    dsimp only
    rw [stOf_of_dget hst])]
  rfl

theorem mkObj2_ok {inst : InstanceS} (hcan : IdsCanonical inst) :
    mkObj2 (projectsV inst).length inst.programming_languages.length
      inst.projects.length inst.programming_languages.length =
      Except.ok { index := 2, priority := 4, weight := 1, expr := obj2expr inst } := by
  unfold mkObj2
  rw [emap_ok (g := fun pk => ((1 : Int), GVar.skill_coverage pk.1 pk.2)) (fun pk hpk => by
    rcases List.mem_flatMap.mp hpk with ⟨p, hp, hpk2⟩
    rcases List.mem_map.mp hpk2 with ⟨k, hk, he⟩
    subst he
    have hn : p < (projectsV inst).length := by
      rw [projectsV_eq hcan]
      exact List.mem_range.mp hp
    exact if_pos ⟨hn, List.mem_range.mp hk⟩)]
  rfl

theorem mkObj3_ok {inst : InstanceS} (hcan : IdsCanonical inst) :
    mkObj3 (projectsV inst).length inst.projects.length =
      Except.ok { index := 3, priority := 3, weight := (1 : Rat) / 2, expr := obj3expr inst } := by
  unfold mkObj3
  rw [emap_ok (g := fun j => ((-1 : Int), GVar.opt_size_diff j)) (fun j hj => by
    have hn : j < (projectsV inst).length := by
      rw [projectsV_eq hcan]
      exact List.mem_range.mp hj
    exact if_pos hn)]
  rfl

theorem mkObj4_ok {inst : InstanceS} (hcan : IdsCanonical inst) :
    mkObj4 (projectsV inst).length inst.projects.length =
      Except.ok { index := 4, priority := 2, weight := 1, expr := obj4expr inst } := by
  unfold mkObj4
  rw [emap_ok (g := fun j => ((-1 : Int), GVar.abs_diff j)) (fun j hj => by
    have hn : j < (projectsV inst).length := by
      rw [projectsV_eq hcan]
      exact List.mem_range.mp hj
    exact if_pos hn)]
  rfl

theorem mkObj5_ok {inst : InstanceS} (hsk : SkillsTotal inst) :
    mkObj5 (studentsD inst) (projectsD inst) inst.programming_languages
      (varPairs inst) =
      Except.ok { index := 5, priority := 1, weight := 1, expr := obj5expr inst } := by
  unfold mkObj5
  rw [filterE_ok (g := obj5condPure inst) (fun q hq => by
    unfold obj5cond
    rcases dget_varPairs hq with ⟨st, hst, _, hmem⟩
    rcases dget_varPairs_proj hq with ⟨pr, hpr, _, _⟩
    rw [hst]
    dsimp only
    rw [hpr]
    dsimp only
    rw [anyE_ok (g := fun lp : String × Int =>
        decide (1 ≤ skOf (stOf inst q.1) lp.1)) (fun lp hlp => by
      have hlang : lp.1 ∈ inst.programming_languages :=
        (List.of_mem_zip (List.mem_of_mem_filter hlp)).1
      rw [skills_some hsk hmem hlang]
      dsimp only
      rw [stOf_of_dget hst])]
    unfold obj5condPure
    rw [prOf_of_dget hpr])]
  rfl

/-- Under the well-formedness precondition, all six setObjectiveN calls run
and produce the pure objective list. -/
theorem setup_objectives_ok {inst : InstanceS} (hwf : WF inst) :
    setup_objectives inst = (pureObjectives inst, none) := by
  unfold setup_objectives
  dsimp only
  rw [mkObj0_ok, mkObj1_ok, mkObj2_ok hwf.1, mkObj3_ok hwf.1, mkObj4_ok hwf.1,
    mkObj5_ok hwf.2.1]
  rfl

theorem countLoop_ok : ∀ (asg : List (Nat × Nat)) (counts : List Int),
    (∀ a ∈ asg, a.2 < counts.length) → ∃ r, countLoop counts asg = Except.ok r := by
  intro asg
  induction asg with
  | nil => intro counts _; exact ⟨counts, rfl⟩
  | cons a rest ih =>
    intro counts h
    rcases a with ⟨sid, ap⟩
    have ha : ap < counts.length := h (sid, ap) (List.mem_cons_self _ _)
    unfold countLoop bump
    rw [dif_pos ha]
    exact ih _ (fun b hb => by
      rw [List.length_set]
      exact h b (List.mem_cons_of_mem _ hb))

theorem mem_enum_get {α : Type} {l : List α} {k : Nat} (hk : k < l.length) :
    (k, l.get ⟨k, hk⟩) ∈ l.enum := by
  rw [List.enum_eq_zip_range]
  have hz : k < ((List.range l.length).zip l).length := by
    rw [List.length_zip, List.length_range]
    simpa using hk
  have h1 : ((List.range l.length).zip l).get ⟨k, hz⟩ = (k, l.get ⟨k, hk⟩) := by
    rw [List.get_zip]
    congr 1
    exact List.get_range _ _
  rw [← h1]
  exact List.get_mem _ _ _

theorem varPairs_filter_student_id {inst : InstanceS} {st : Student}
    (hst : st ∈ studentsV inst) :
    (varPairs inst).filter (fun q => q.1 == st.id) =
      (projectsV inst).map (fun p => (st.id, p.id)) := by
  unfold varPairs
  exact varPairs_filter_student (studentsV inst) (projectsV inst)
    (studentsV_ids_nodup inst) hst

/-- The at-most-one constraint forces a binary valuation to set at most one
variable in a student's block. -/
theorem student_kept_le_one {inst : InstanceS} {v : GVar → Int} (hb : Binary v)
    (hsat : ∀ c ∈ (setup_constraints inst).constraints, holds v c)
    {st : Student} (hst : st ∈ studentsV inst) :
    (((projectsV inst).map (fun p => (st.id, p.id))).filter
      (fun q => decide (1 ≤ v (GVar.assign q.1 q.2)))).length ≤ 1 := by
  have h := hsat _ (student_constraint_mem hst)
  have h2 : evalL v (studSum (varPairs inst) st.id) ≤ evalL v (constE 1) := h
  unfold studSum at h2
  rw [varPairs_filter_student_id hst, evalL_unit_sum hb] at h2
  have h3 : evalL v (constE 1) = 1 := by simp [evalL, constE]
  rw [h3] at h2
  exact_mod_cast h2

theorem solve_kf_fst_nodup {inst : InstanceS} {v : GVar → Int} (hb : Binary v)
    (hsat : ∀ c ∈ (setup_constraints inst).constraints, holds v c) :
    (((varPairs inst).filter (fun q => decide (1 ≤ v (GVar.assign q.1 q.2)))).map
      Prod.fst).Nodup := by
  have hsplit : (varPairs inst).filter (fun q => decide (1 ≤ v (GVar.assign q.1 q.2))) =
      (studentsV inst).flatMap (fun s =>
        ((projectsV inst).map (fun p => (s.id, p.id))).filter
          (fun q => decide (1 ≤ v (GVar.assign q.1 q.2)))) := by
    unfold varPairs
    rw [List.filter_flatMap]
  rw [hsplit]
  apply flatMap_fst_nodup
  · exact studentsV_ids_nodup inst
  · intro s hs q hq
    rcases List.mem_map.mp (List.mem_of_mem_filter hq) with ⟨p, hp, he⟩
    rw [← he]
  · intro s hs
    exact student_kept_le_one hb hsat hs

/-- Under the hard constraints, the dict built by as_dict collapses nothing:
the solve result is exactly the list of set variable pairs. -/
theorem solve_assignments_eq {inst : InstanceS} {v : GVar → Int} (hb : Binary v)
    (hsat : ∀ c ∈ (setup_constraints inst).constraints, holds v c) :
    (solve inst v).assignments =
      (varPairs inst).filter (fun q => decide (1 ≤ v (GVar.assign q.1 q.2))) := by
  unfold solve as_dict
  exact pyDict_eq_self (solve_kf_fst_nodup hb hsat)

theorem countTo_eq_evalL {inst : InstanceS} {v : GVar → Int} (hb : Binary v)
    (hsat : ∀ c ∈ (setup_constraints inst).constraints, holds v c) (pid : Nat) :
    countTo (solve inst v) pid = evalL v (projSum (varPairs inst) pid) := by
  unfold countTo
  rw [solve_assignments_eq hb hsat, List.filter_comm]
  unfold projSum
  rw [evalL_unit_sum hb]

theorem countFrom_le_one {inst : InstanceS} {v : GVar → Int} (hb : Binary v)
    (hsat : ∀ c ∈ (setup_constraints inst).constraints, holds v c)
    {st : Student} (hst : st ∈ studentsV inst) :
    countFrom (solve inst v) st.id ≤ 1 := by
  unfold countFrom
  rw [solve_assignments_eq hb hsat, List.filter_comm, varPairs_filter_student_id hst]
  exact_mod_cast student_kept_le_one hb hsat hst

theorem capacity_bounds {inst : InstanceS} {v : GVar → Int} (hb : Binary v)
    (hsat : ∀ c ∈ (setup_constraints inst).constraints, holds v c)
    {pr : ProjectS} (hpr : pr ∈ projectsV inst) :
    pr.min ≤ countTo (solve inst v) pr.id ∧ countTo (solve inst v) pr.id ≤ pr.max := by
  obtain ⟨hmax, hmin⟩ := capacity_constraints_mem hpr
  have h1 : evalL v (projSum (varPairs inst) pr.id) ≤ evalL v (constE pr.max) :=
    hsat _ hmax
  have h2 : evalL v (constE pr.min) ≤ evalL v (projSum (varPairs inst) pr.id) :=
    hsat _ hmin
  rw [countTo_eq_evalL hb hsat]
  constructor
  · simpa [evalL, constE] using h2
  · simpa [evalL, constE] using h1

/-- C1: data_schema.Project defines exactly id, min and max; constructing a
Project with the extra keyword arguments opt and language_requirements (as
utils.py line 52 does) silently discards those values, and since
setup_constraints reads project.language_requirements and project.opt for
every project, the builder raises and cannot complete model construction for
every Instance containing at least one project. -/
theorem C1_schema_discards_extras_and_builder_fails :
    (∀ (i : Nat) (mn mx o1 o2 : Int) (l1 l2 : List Int),
      Project.fromKwargs i mn mx o1 l1 = Project.fromKwargs i mn mx o2 l2) ∧
    (∀ inst : Instance, inst.projects ≠ [] →
      (setup_constraintsD inst).2.isSome = true) := by
  constructor
  · intro i mn mx o1 o2 l1 l2
    rfl
  · intro inst hne
    cases he : (setup_constraintsD inst).2 with
    | some e => rfl
    | none =>
      exfalso
      unfold setup_constraintsD at he
      dsimp only at he
      have h1 := pcomp_none he
      have h2 := pcomp_none h1.2
      have h3 := pcomp_none h2.2
      have h4 := pcomp_none h3.2
      have hps : (pyDict (inst.projects.map (fun p => (p.id, p)))).map
          (fun e => e.2) ≠ [] := by
        intro h0
        apply pyDict_ne_nil (l := inst.projects.map (fun p => (p.id, p)))
          (by simpa using hne)
        simpa using h0
      rcases hl : (pyDict (inst.projects.map (fun p => (p.id, p)))).map
          (fun e => e.2) with _ | ⟨p, rest⟩
      · exact hps hl
      · have h5 := h4.2
        rw [hl] at h5
        unfold foldStop optSizeStepD at h5
        by_cases hlt : p.id < (p :: rest).length
        · rw [if_pos hlt] at h5
          dsimp only at h5
          exact Option.noConfusion h5
        · rw [if_neg hlt] at h5
          dsimp only at h5
          exact Option.noConfusion h5

/-- C1 witness: on a concrete one-project data_schema instance the builder
raises before completing. -/
theorem C1_witness :
    (setup_constraintsD schemaInst).2.isSome = true ∧
    Project.fromKwargs 0 1 2 7 [1] = Project.fromKwargs 0 1 2 9 [] := by
  constructor
  · exact C1_schema_discards_extras_and_builder_fails.2 schemaInst (by decide)
  · exact C1_schema_discards_extras_and_builder_fails.1 0 1 2 7 9 [1] []

/-- C2: every Solution returned by SEPAssignmentSolver.solve lists each
student id at most once, because as_dict builds a dict keyed by student id
before the assignment list is extracted. -/
theorem C2_student_ids_unique (inst : InstanceS) (v : GVar → Int) :
    (((solve inst v).assignments).map Prod.fst).Nodup := by
  unfold solve as_dict
  exact pyDict_keys_nodup _

/-- C3: the model contains, for every project, the capacity constraints
min <= sum of its assign variables <= max, and for every student the
constraint sum of their assign variables <= 1; consequently every Solution
extracted from a feasible binary valuation satisfies the capacity bounds and
assigns each student at most once. -/
theorem C3_capacity_and_at_most_one (inst : InstanceS) (v : GVar → Int) :
    (∀ pr ∈ projectsV inst,
      Constr.le (projSum (varPairs inst) pr.id) (constE pr.max) ∈
        (setup_constraints inst).constraints ∧
      Constr.le (constE pr.min) (projSum (varPairs inst) pr.id) ∈
        (setup_constraints inst).constraints) ∧
    (∀ st ∈ studentsV inst,
      Constr.le (studSum (varPairs inst) st.id) (constE 1) ∈
        (setup_constraints inst).constraints) ∧
    (Binary v → (∀ c ∈ (setup_constraints inst).constraints, holds v c) →
      (∀ pr ∈ projectsV inst,
        pr.min ≤ countTo (solve inst v) pr.id ∧
        countTo (solve inst v) pr.id ≤ pr.max) ∧
      (∀ st ∈ studentsV inst, countFrom (solve inst v) st.id ≤ 1)) := by
  refine ⟨fun pr hpr => capacity_constraints_mem hpr,
          fun st hst => student_constraint_mem hst,
          fun hb hsat => ⟨fun pr hpr => capacity_bounds hb hsat hpr,
                          fun st hst => countFrom_le_one hb hsat hst⟩⟩

/-- C3 witness: the all-zero valuation satisfies the model of simpleInst and
the extracted solution obeys the bounds. -/
theorem C3_witness :
    (0 : Int) ≤ countTo (solve simpleInst vZero) 0 ∧
    countTo (solve simpleInst vZero) 0 ≤ 1 ∧
    countFrom (solve simpleInst vZero) 0 ≤ 1 := by
  have h := (C3_capacity_and_at_most_one simpleInst vZero).2.2
    (fun s p => Or.inl rfl) (by decide)
  have hpr : (⟨0, 0, 1, 0, []⟩ : ProjectS) ∈ projectsV simpleInst := by decide
  have hst : (⟨0, [0], [], 0, [("java", 2)]⟩ : Student) ∈ studentsV simpleInst := by
    decide
  have ha := h.1 _ hpr
  have hb2 := h.2 _ hst
  exact ⟨ha.1, ha.2, hb2⟩

/-- C4: for every project and every language index of the instance list,
if the requirement is 1 the model contains the minimum-skill constraint
1 <= sum of assign * skill_level and the helper bound
skill_coverage[p, k] <= number of assigned students with level at least 2;
if the requirement is 0, skill_coverage[p, k] is forced to 0. -/
theorem C4_skill_constraints (inst : InstanceS) (hwf : WF inst) :
    ∀ pr ∈ inst.projects, ∀ k, ∀ hk : k < inst.programming_languages.length,
      (pr.language_requirements.getD k 0 = 1 →
        Constr.le (constE 1)
          (skillSumE inst pr.id (inst.programming_languages.get ⟨k, hk⟩)) ∈
          (setup_constraints inst).constraints ∧
        Constr.le (sumVars [(1, GVar.skill_coverage pr.id k)])
          (advSumE inst pr.id (inst.programming_languages.get ⟨k, hk⟩)) ∈
          (setup_constraints inst).constraints) ∧
      (pr.language_requirements.getD k 0 = 0 →
        Constr.eqc (sumVars [(1, GVar.skill_coverage pr.id k)]) (constE 0) ∈
          (setup_constraints inst).constraints) := by
  intro pr hpr k hk
  have hprV : pr ∈ projectsV inst := by
    rw [projectsV_eq hwf.1]
    exact hpr
  have hcs : (setup_constraints inst).constraints =
      (projectConstrs (varPairs inst) (projectsV inst) ++
       studentConstrs (varPairs inst) (studentsV inst)) ++
      ((projectsV inst).flatMap (absDiffPure inst) ++
       ((projectsV inst).flatMap (skillCovPure inst) ++
        ((projectsV inst).flatMap (minSkillPure inst) ++
         (projectsV inst).flatMap (optSizePure inst)))) := by
    rw [setup_constraints_constraints, setup_constraints_list_ok hwf]
  constructor
  · intro h1
    constructor
    · rw [hcs]
      apply List.mem_append_right
      apply List.mem_append_right
      apply List.mem_append_right
      apply List.mem_append_left
      apply List.mem_flatMap.mpr
      refine ⟨pr, hprV, ?_⟩
      unfold minSkillPure
      apply List.mem_flatMap.mpr
      refine ⟨(k, inst.programming_languages.get ⟨k, hk⟩), mem_enum_get hk, ?_⟩
      dsimp only
      rw [h1]
      exact List.mem_singleton.mpr rfl
    · rw [hcs]
      apply List.mem_append_right
      apply List.mem_append_right
      apply List.mem_append_left
      apply List.mem_flatMap.mpr
      refine ⟨pr, hprV, ?_⟩
      unfold skillCovPure
      apply List.mem_flatMap.mpr
      refine ⟨(k, inst.programming_languages.get ⟨k, hk⟩), mem_enum_get hk, ?_⟩
      dsimp only
      rw [if_pos h1]
      exact List.mem_singleton.mpr rfl
  · intro h0
    rw [hcs]
    apply List.mem_append_right
    apply List.mem_append_right
    apply List.mem_append_left
    apply List.mem_flatMap.mpr
    refine ⟨pr, hprV, ?_⟩
    unfold skillCovPure
    apply List.mem_flatMap.mpr
    refine ⟨(k, inst.programming_languages.get ⟨k, hk⟩), mem_enum_get hk, ?_⟩
    dsimp only
    have hne : pr.language_requirements.getD k 0 ≠ 1 := by
      rw [h0]
      decide
    rw [if_neg hne, if_pos h0]
    exact List.mem_singleton.mpr rfl

/-- C4 witness: on wfInst the java requirement of project 0 produces both
constraints. -/
theorem C4_witness :
    Constr.le (constE 1) (skillSumE wfInst 0 "java") ∈
      (setup_constraints wfInst).constraints ∧
    Constr.le (sumVars [(1, GVar.skill_coverage 0 0)]) (advSumE wfInst 0 "java") ∈
      (setup_constraints wfInst).constraints := by
  have h := (C4_skill_constraints wfInst (by decide) ⟨0, 0, 1, 0, [1]⟩ (by decide)
    0 (by decide)).1 (by decide)
  exact h

/-- C5: the objective bundle is prioritized: the top term (priority 6,
strictly above all others) is obj0expr, which rewards a non-disliked
assignment with 1 and a disliked one with 0, and the next term (priority 5)
is obj1expr, which rewards a preferred assignment with 2 and any other with
1; every remaining term has strictly lower priority. -/
theorem C5_objective_priorities (inst : InstanceS) (hwf : WF inst) :
    ∃ rest, (setup_constraints inst).objectives =
        { index := 0, priority := 6, weight := 2, expr := obj0expr inst } ::
        { index := 1, priority := 5, weight := 2, expr := obj1expr inst } :: rest ∧
      (∀ o ∈ rest, o.priority < 5) ∧
      (∀ o ∈ ({ index := 1, priority := 5, weight := 2, expr := obj1expr inst } ::
          rest : List MObj), o.priority < 6) := by
  refine ⟨[{ index := 2, priority := 4, weight := 1, expr := obj2expr inst },
           { index := 3, priority := 3, weight := (1 : Rat) / 2, expr := obj3expr inst },
           { index := 4, priority := 2, weight := 1, expr := obj4expr inst },
           { index := 5, priority := 1, weight := 1, expr := obj5expr inst }],
      ?_, ?_, ?_⟩
  · rw [setup_constraints_objectives inst (by rw [setup_constraints_list_ok hwf]),
        setup_objectives_ok hwf]
    rfl
  · intro o ho
    simp only [List.mem_cons, List.not_mem_nil, or_false] at ho
    rcases ho with rfl | rfl | rfl | rfl <;> (dsimp only; omega)
  · intro o ho
    simp only [List.mem_cons, List.not_mem_nil, or_false] at ho
    rcases ho with rfl | rfl | rfl | rfl | rfl <;> (dsimp only; omega)

/-- C5 witness: on wfInst the first two objective priorities are 6 and 5. -/
theorem C5_witness :
    ((setup_constraints wfInst).objectives.head?).map (fun o => o.priority) =
      some 6 ∧
    (((setup_constraints wfInst).objectives.drop 1).head?).map
      (fun o => o.priority) = some 5 := by
  obtain ⟨rest, heq, h5, h6⟩ := C5_objective_priorities wfInst (by decide)
  rw [heq]
  exact ⟨rfl, rfl⟩

/-- C6 counterexample: badMinMaxInst has a project with min 2 > max 1, yet
setup_constraints completes without raising anything; no ModelError (or any
other structural validation) exists in the Builder. -/
theorem C6_counterexample :
    badMinMaxInst.projects.map (fun pr => decide (pr.max < pr.min)) = [true] ∧
    (setup_constraints badMinMaxInst).err = none := by
  constructor
  · decide
  · decide

/-- C6 amended: the Builder performs no structural validation and raises no
ModelError; an Instance with min > max completes construction normally, and
the two capacity constraints it produces for that project are jointly
unsatisfiable, so the error surfaces only as solver-side infeasibility. -/
theorem C6_amended_no_validation (inst : InstanceS) {pr : ProjectS}
    (hpr : pr ∈ projectsV inst) (hmm : pr.max < pr.min) :
    (Constr.le (projSum (varPairs inst) pr.id) (constE pr.max) ∈
       (setup_constraints inst).constraints ∧
     Constr.le (constE pr.min) (projSum (varPairs inst) pr.id) ∈
       (setup_constraints inst).constraints) ∧
    ∀ v : GVar → Int,
      ¬ (holds v (Constr.le (projSum (varPairs inst) pr.id) (constE pr.max)) ∧
         holds v (Constr.le (constE pr.min) (projSum (varPairs inst) pr.id))) := by
  refine ⟨capacity_constraints_mem hpr, ?_⟩
  rintro v ⟨h1, h2⟩
  have h3 : evalL v (constE pr.min) ≤ evalL v (constE pr.max) := le_trans h2 h1
  simp only [evalL, constE, List.map_nil, List.sum_nil, add_zero] at h3
  omega

/-- C6 witness: the unsatisfiable capacity pair of badMinMaxInst, with the
all-zero valuation refuting joint satisfaction. -/
theorem C6_witness :
    Constr.le (constE 2) (projSum (varPairs badMinMaxInst) 0) ∈
      (setup_constraints badMinMaxInst).constraints ∧
    ¬ (holds vZero (Constr.le (projSum (varPairs badMinMaxInst) 0) (constE 1)) ∧
       holds vZero (Constr.le (constE 2) (projSum (varPairs badMinMaxInst) 0))) := by
  have h := @C6_amended_no_validation badMinMaxInst
    ⟨0, 2, 1, 0, []⟩ (by decide) (by decide)
  exact ⟨h.1.2, h.2 vZero⟩

/-- C7 (code-bug evidence): the worker registers only the "Message" callback,
so no Engine callback ever writes the shared slots; after any event sequence
both slots still hold their initial sentinels, and the update_upper_bound
helper, which is never registered anyway, writes the lower-bound slot
instead of the objective slot. -/
theorem C7_bounds_never_updated :
    (∀ evs : List EngineEvent, (workerRun evs).1 = initialSlots) ∧
    (∀ (s : SharedSlots) (v : Int),
      (update_upper_bound s v).objective_value = s.objective_value ∧
      (update_upper_bound s v).lower_bound = some v) ∧
    get_current_objective_value (workerRun [EngineEvent.incumbentUpdate 5]).1 =
      none ∧
    get_current_bound (workerRun [EngineEvent.boundUpdate 3]).1 = none := by
  refine ⟨?_, fun s v => ⟨rfl, rfl⟩, rfl, rfl⟩
  intro evs
  have haux : ∀ (evs : List EngineEvent) (st : SharedSlots × List String),
      (evs.foldl workerDispatch st).1 = st.1 := by
    intro evs
    induction evs with
    | nil => intro st; rfl
    | cons e rest ih =>
      intro st
      rw [List.foldl_cons, ih]
      cases e with
      | message m =>
        by_cases hm : "Message" ∈ worker_callbacks
        · simp [workerDispatch, hm]
        · simp [workerDispatch, hm]
      | boundUpdate v => rfl
      | incumbentUpdate v => rfl
  exact haux evs _

/-- C9: re-running every statistic of SolutionStatCalculator on the same
(Instance, Solution) pair yields identical results, and the calculator state
is unchanged: the embedded methods read but never write the instance, the
solution or the lookup dict. -/
theorem C9_stats_idempotent (inst : InstanceS) (sol : Solution) :
    (runStats (SolutionStatCalculator.init inst sol)).2 =
      SolutionStatCalculator.init inst sol ∧
    (runStats ((runStats (SolutionStatCalculator.init inst sol)).2)).1 =
      (runStats (SolutionStatCalculator.init inst sol)).1 :=
  ⟨rfl, rfl⟩

/-- C10: the builder and the size-deviation statistic index lists and
variable dicts directly by project id; under the unstated precondition that
ids are exactly the positions (plus total skill dicts and long enough
requirement vectors) everything runs without an exception, while a project
id outside 0..n-1 raises IndexError in the abs_diff block, and an assignment
to a nonexistent project raises IndexError in
count_difference_from_optimal_size. -/
theorem C10_id_indexing_precondition :
    (∀ inst : InstanceS, WF inst → (setup_constraints inst).err = none) ∧
    (∀ (inst : InstanceS) (sol : Solution),
      (∀ a ∈ sol.assignments, a.2 < inst.projects.length) →
      ∃ r, (count_difference_from_optimal_size
        (SolutionStatCalculator.init inst sol)).1 = Except.ok r) ∧
    (setup_constraints badIdInst).err = some "IndexError" ∧
    (count_difference_from_optimal_size
      (SolutionStatCalculator.init badIdInst badSol)).1 =
        Except.error "IndexError" := by
  refine ⟨?_, ?_, by rfl, by rfl⟩
  · intro inst hwf
    exact setup_constraints_err inst (by rw [setup_constraints_list_ok hwf])
      (by rw [setup_objectives_ok hwf])
  · intro inst sol h
    have hlen : ∀ a ∈ sol.assignments,
        a.2 < (List.replicate inst.projects.length (0 : Int)).length := by
      intro a ha
      rw [List.length_replicate]
      exact h a ha
    rcases countLoop_ok sol.assignments _ hlen with ⟨r, hr⟩
    refine ⟨(List.range inst.projects.length).map (fun i =>
      |r.getD i 0 - (inst.projects.map (fun p => p.opt)).getD i 0|), ?_⟩
    unfold count_difference_from_optimal_size SolutionStatCalculator.init
    dsimp only
    rw [hr]

/-- C10 witness: a concrete instance satisfying the precondition builds with
no exception and its size-deviation statistic computes. -/
theorem C10_witness :
    (setup_constraints wfInst).err = none ∧
    ((count_difference_from_optimal_size
      (SolutionStatCalculator.init wfInst { assignments := [(0, 0)] })).1).isOk =
        true := by
  refine ⟨C10_id_indexing_precondition.1 wfInst (by decide), ?_⟩
  obtain ⟨r, hr⟩ := C10_id_indexing_precondition.2.1 wfInst
    { assignments := [(0, 0)] } (by decide)
  rw [hr]
  rfl
